import Mathlib

/-!
# VRChat yt-dlp updater (`src/main.cpp`): shallow embedding

The program is a sequential Windows console tool.  It is embedded as
state-passing functions over a `World` (file system, chronological trace of
console lines and operating-system calls, pending console input).  Everything the
program cannot decide by itself (whether an OS call fails, what the network
returns, the exit code of `icacls`, how a response body parses) is read from
an `Env` oracle, which sees the call and the trace so far, so that every call
can fail or succeed independently of every other one.

Modelling decisions, all on the side of the platform and not of the program:
* a path is a `String`; the file system is a flat map from paths to nodes,
  two different strings are two different files;
* a `std::string` / file content is a `String`, one `Char` per byte; files
  opened through `std::ifstream` / `std::ofstream` are seen as their text;
* a stream that was opened successfully writes successfully;
* C++ exceptions, failed assertions and a console loop that never ends are
  the `Res.stop` outcome, which keeps the world reached so far.
-/

namespace YtDlpUpdater

set_option maxRecDepth 8192

/-! ## Data model -/

/-- Windows mandatory integrity label of a file. -/
inductive IntegrityLevel where
  | low
  | medium
  | high
deriving DecidableEq, Repr

/-- A node of the file system: a regular file or a directory. -/
inductive Node where
  | file (content : String) (attrs : Nat) (integrity : Option IntegrityLevel)
  | dir (attrs : Nat)
deriving DecidableEq, Repr

/-- The attribute word `GetFileAttributesA` reports for a node. -/
def Node.attrs : Node → Nat
  | .file _ a _ => a
  | .dir a => a

/-- The same node with another attribute word. -/
def Node.withAttrs : Node → Nat → Node
  | .file c _ l, a => .file c a l
  | .dir _, a => .dir a

/-- Content of a regular file. -/
def Node.content? : Node → Option String
  | .file c _ _ => some c
  | .dir _ => none

/-- Integrity label of a regular file. -/
def Node.integrity? : Node → Option IntegrityLevel
  | .file _ _ l => l
  | .dir _ => none

/-- Is the node a regular file. -/
def Node.isFile : Node → Bool
  | .file _ _ _ => true
  | .dir _ => false

def FILE_ATTRIBUTE_READONLY : Nat := 0x1
def FILE_ATTRIBUTE_HIDDEN : Nat := 0x2
def FILE_ATTRIBUTE_SYSTEM : Nat := 0x4
def FILE_ATTRIBUTE_DIRECTORY : Nat := 0x10
def FILE_ATTRIBUTE_ARCHIVE : Nat := 0x20

/-- What one `curl_easy_perform` produced: the `CURLcode` (0 is `CURLE_OK`),
`CURLINFO_RESPONSE_CODE`, `CURLINFO_CONTENT_LENGTH_DOWNLOAD_T` (-1 when the
server sent none) and the bytes handed to the write callback. -/
structure Transfer where
  res : Nat
  responseCode : Int
  contentLength : Int
  body : String
deriving DecidableEq, Repr

/-- One entry of the trace: a console line or a call into the platform. -/
inductive Event where
  | cout (text : String)
  | cerr (text : String)
  | curl_easy_init
  | curl_easy_perform (url : String) (tr : Transfer)
  | fopen_wb (path : String)
  | fs_remove (path : String)
  | fs_rename (src dst : String)
  | fs_create_directories (path : String)
  | GetFileAttributesA (path : String)
  | SetFileAttributesA (path : String) (attrs : Nat)
  | system (cmd : String)
  | ofstream_open (path : String)
  | ifstream_open (path : String)
  | SHGetKnownFolderPath
  | cin_int
deriving DecidableEq, Repr

/-- A value of `nlohmann::json`.  An object is the list of its members in
the iteration order of the underlying `std::map`; a key is looked up by its
first occurrence. -/
inductive Json where
  | null
  | bool (b : Bool)
  | number (n : Int)
  | string (s : String)
  | array (xs : List Json)
  | object (kvs : List (String × Json))

/-- Ways in which a function does not return to its caller. -/
inductive Exn where
  | filesystem_error
  | json_parse_error
  | json_type_error
  | assertion_failure
  | hang
deriving DecidableEq, Repr

/-- The environment: every answer the program gets from outside.
`fault call history` says whether the call fails for a reason of the
platform (sharing violation, access denied, out of memory, ...). -/
structure Env where
  fault : Event → List Event → Bool
  transfer : String → List Event → Transfer
  exitCode : String → List Event → Int
  lastError : List Event → Nat
  formatMessage : Nat → Option String
  json_parse : String → Option Json
  localAppDataLow : Except Int String
  curl_easy_strerror : Nat → String
  what : Exn → String

/-- The state the program acts on.  `stdin` is the pending console input,
one entry per line: the integer `std::cin >> choice` would extract from it,
or `none` when the line does not start with an integer. -/
structure World where
  fs : String → Option Node
  trace : List Event
  stdin : List (Option Int)

/-- Outcome of running a function: it returned `a`, or it did not return. -/
inductive Res (α : Type) where
  | ok (a : α) (w : World)
  | stop (e : Exn) (w : World)

/-- The world at the end of the run. -/
def Res.world {α : Type} : Res α → World
  | .ok _ w => w
  | .stop _ w => w

/-- The returned value, when the function returned. -/
def Res.value? {α : Type} : Res α → Option α
  | .ok a _ => some a
  | .stop _ _ => none

/-- The reason for which the function did not return, when it did not. -/
def Res.exn? {α : Type} : Res α → Option Exn
  | .ok _ _ => none
  | .stop e _ => some e

/-- A program: a function from the world before to the outcome. -/
def Prog (α : Type) : Type := World → Res α

/-- Sequencing: a `stop` skips everything that follows. -/
def Prog.bind {α β : Type} (m : Prog α) (f : α → Prog β) : Prog β := fun w =>
  match m w with
  | .ok a w1 => f a w1
  | .stop e w1 => .stop e w1

instance : Monad Prog where
  pure a := fun w => .ok a w
  bind := Prog.bind

/-- Raise a C++ exception (or otherwise stop). -/
def throwExn {α : Type} (e : Exn) : Prog α := fun w => .stop e w

/-- A `try` block with a handler for the exceptions `catches` accepts. -/
def tryCatch {α : Type} (body : Prog α) (catches : Exn → Bool) (handler : Exn → Prog α) :
    Prog α := fun w =>
  match body w with
  | .ok a w1 => .ok a w1
  | .stop e w1 => if catches e then handler e w1 else .stop e w1

/-- The handler `catch (const std::exception&)`: filesystem and json
exceptions derive from `std::exception`. -/
def isStdException : Exn → Bool
  | .filesystem_error => true
  | .json_parse_error => true
  | .json_type_error => true
  | .assertion_failure => false
  | .hang => false

/-- The handler `catch (const json::parse_error&)`. -/
def isJsonParseError : Exn → Bool
  | .json_parse_error => true
  | _ => false

/-! ## The platform -/

/-- Append an event to the trace. -/
def World.log (w : World) (e : Event) : World :=
  { w with trace := w.trace ++ [e] }

/-- The file system with the node at `p` replaced. -/
def fsSet (fs : String → Option Node) (p : String) (n : Option Node) : String → Option Node :=
  fun q => if q = p then n else fs q

def cout (text : String) : Prog Unit := fun w => .ok () (w.log (.cout text))

def cerr (text : String) : Prog Unit := fun w => .ok () (w.log (.cerr text))

/-- `fs::exists(p)`. -/
def fs_exists (p : String) : Prog Bool := fun w => .ok (w.fs p).isSome w

/-- `fs::is_regular_file(p)`. -/
def fs_is_regular_file (p : String) : Prog Bool := fun w =>
  match w.fs p with
  | some n => .ok n.isFile w
  | none => .ok false w

/-- `fs::file_size(p)`: throws unless `p` is a regular file. -/
def fs_file_size (p : String) : Prog Nat := fun w =>
  match w.fs p with
  | some (.file c _ _) => .ok c.length w
  | _ => .stop .filesystem_error w

/-- `fs::remove(p)`: `false` when nothing is there, `true` when the node was
removed, an exception when the platform refuses. -/
def fs_remove (env : Env) (p : String) : Prog Bool := fun w =>
  let w1 := w.log (.fs_remove p)
  match w.fs p with
  | none => .ok false w1
  | some _ =>
    if env.fault (.fs_remove p) w.trace then .stop .filesystem_error w1
    else .ok true { w1 with fs := fsSet w.fs p none }

/-- `fs::rename(src, dst)`: moves the node, replacing a file at `dst`;
throws when `src` is missing, `dst` is a directory or the platform refuses. -/
def fs_rename (env : Env) (src dst : String) : Prog Unit := fun w =>
  let w1 := w.log (.fs_rename src dst)
  match w.fs src, w.fs dst with
  | none, _ => .stop .filesystem_error w1
  | some _, some (.dir _) => .stop .filesystem_error w1
  | some n, _ =>
    if env.fault (.fs_rename src dst) w.trace then .stop .filesystem_error w1
    else .ok () { w1 with fs := fsSet (fsSet w.fs src none) dst (some n) }

/-- `fs::create_directories(p)`: throws when a file is in the way or the
platform refuses. -/
def fs_create_directories (env : Env) (p : String) : Prog Unit := fun w =>
  let w1 := w.log (.fs_create_directories p)
  match w.fs p with
  | some (.file _ _ _) => .stop .filesystem_error w1
  | some (.dir _) => .ok () w1
  | none =>
    if env.fault (.fs_create_directories p) w.trace then .stop .filesystem_error w1
    else .ok () { w1 with fs := fsSet w.fs p (some (.dir FILE_ATTRIBUTE_DIRECTORY)) }

/-- `GetFileAttributesA(p)`; `none` is `INVALID_FILE_ATTRIBUTES`. -/
def GetFileAttributesA (env : Env) (p : String) : Prog (Option Nat) := fun w =>
  let w1 := w.log (.GetFileAttributesA p)
  match w.fs p with
  | none => .ok none w1
  | some n =>
    if env.fault (.GetFileAttributesA p) w.trace then .ok none w1
    else .ok (some n.attrs) w1

/-- `SetFileAttributesA(p, attrs)`; the result is the `BOOL`. -/
def SetFileAttributesA (env : Env) (p : String) (attrs : Nat) : Prog Bool := fun w =>
  let w1 := w.log (.SetFileAttributesA p attrs)
  match w.fs p with
  | none => .ok false w1
  | some n =>
    if env.fault (.SetFileAttributesA p attrs) w.trace then .ok false w1
    else .ok true { w1 with fs := fsSet w.fs p (some (n.withAttrs attrs)) }

/-- `GetLastError()`. -/
def GetLastError (env : Env) : Prog Nat := fun w => .ok (env.lastError w.trace) w

/-- Can a node be opened for writing: not a directory, not read-only. -/
def writableNode : Option Node → Bool
  | none => true
  | some (.dir _) => false
  | some (.file _ a _) => a &&& FILE_ATTRIBUTE_READONLY == 0

/-- The attributes of a file after create-or-truncate: those of the file
it replaces, if any. -/
def keptAttrs : Option Node → Nat
  | some (.file _ a _) => a
  | _ => FILE_ATTRIBUTE_ARCHIVE

/-- The integrity label of a file after create-or-truncate. -/
def keptIntegrity : Option Node → Option IntegrityLevel
  | some (.file _ _ l) => l
  | _ => none

/-- The node a successful create-or-truncate leaves: empty, with the
attributes and label of the file it replaces, if any. -/
def truncated (old : Option Node) : Node :=
  .file "" (keptAttrs old) (keptIntegrity old)

/-- Append text to the file at `p` (an open stream writes). -/
def fsAppend (fs : String → Option Node) (p : String) (text : String) : String → Option Node :=
  match fs p with
  | some (.file c a l) => fsSet fs p (some (.file (c ++ text) a l))
  | _ => fs

/-- The call `fopen(p, "wb")`; the result says whether the `FILE*` is non-null. -/
def fopen_wb (env : Env) (p : String) : Prog Bool := fun w =>
  let w1 := w.log (.fopen_wb p)
  if !writableNode (w.fs p) || env.fault (.fopen_wb p) w.trace then .ok false w1
  else .ok true { w1 with fs := fsSet w.fs p (some (truncated (w.fs p))) }

/-- `std::ofstream file(p)`; the result is `file.is_open()`. -/
def ofstream_open (env : Env) (p : String) : Prog Bool := fun w =>
  let w1 := w.log (.ofstream_open p)
  if !writableNode (w.fs p) || env.fault (.ofstream_open p) w.trace then .ok false w1
  else .ok true { w1 with fs := fsSet w.fs p (some (truncated (w.fs p))) }

/-- `file << text` on an open `std::ofstream`. -/
def ofstream_write (p : String) (text : String) : Prog Unit := fun w =>
  .ok () { w with fs := fsAppend w.fs p text }

/-- `std::ifstream file(p)`; the result is `file.is_open()`. -/
def ifstream_open (env : Env) (p : String) : Prog Bool := fun w =>
  let w1 := w.log (.ifstream_open p)
  match w.fs p with
  | some (.file _ _ _) => .ok (!env.fault (.ifstream_open p) w.trace) w1
  | _ => .ok false w1

/-- The text up to the first line feed, as `std::getline` extracts it. -/
def firstLine (s : String) : String :=
  String.mk (s.data.takeWhile (fun c => c != '\n'))

/-- `std::getline(file, line)` on a stream just opened on `p`. -/
def getline (p : String) : Prog String := fun w =>
  match w.fs p with
  | some (.file c _ _) => .ok (firstLine c) w
  | _ => .ok "" w

/-- `curl_easy_init()`; the result says whether the handle is non-null. -/
def curl_easy_init (env : Env) : Prog Bool := fun w =>
  .ok (!env.fault .curl_easy_init w.trace) (w.log .curl_easy_init)

/-- `curl_easy_perform` with `CURLOPT_WRITEDATA` set to the `FILE*` opened
on `fp`: the bytes received go to that file. -/
def curl_easy_perform_to_file (env : Env) (url fp : String) : Prog Transfer := fun w =>
  let tr := env.transfer url w.trace
  .ok tr { w with trace := w.trace ++ [.curl_easy_perform url tr], fs := fsAppend w.fs fp tr.body }

/-- `curl_easy_perform` with `WriteCallback` appending to a `std::string`. -/
def curl_easy_perform_to_string (env : Env) (url : String) : Prog Transfer := fun w =>
  let tr := env.transfer url w.trace
  .ok tr (w.log (.curl_easy_perform url tr))

/-- Give the file at `p` an integrity label. -/
def fsSetIntegrity (fs : String → Option Node) (p : String) (l : IntegrityLevel) :
    String → Option Node :=
  match fs p with
  | some (.file c a _) => fsSet fs p (some (.file c a (some l)))
  | _ => fs

/-- `system(cmd)` for the command `icacls "<p>" /setintegritylevel medium`:
the exit code comes from the environment; `icacls` exits with 0 exactly when
it has labelled the file, and touches nothing else. -/
def system_icacls_setintegritylevel_medium (env : Env) (cmd p : String) : Prog Int := fun w =>
  let code := env.exitCode cmd w.trace
  let w1 := w.log (.system cmd)
  if code = 0 then .ok code { w1 with fs := fsSetIntegrity w.fs p .medium }
  else .ok code w1

/-- `SHGetKnownFolderPath(FOLDERID_LocalAppDataLow, ...)` followed by the
conversion to a narrow string: the folder, or the failing `HRESULT`. -/
def SHGetKnownFolderPath (env : Env) : Prog (Except Int String) := fun w =>
  .ok env.localAppDataLow (w.log .SHGetKnownFolderPath)

/-- `std::cin >> choice`, then (on the paths that discard it) the rest of the
line: takes the next pending line.  `none` when the input has ended. -/
def cin_int : Prog (Option (Option Int)) := fun w =>
  match w.stdin with
  | [] => .ok none (w.log .cin_int)
  | l :: rest => .ok (some l) { w with trace := w.trace ++ [.cin_int], stdin := rest }

/-- `std::string::find(needle)` on the characters of the string, from
position `i`: the first position at which `needle` occurs, `none` for `npos`. -/
def findFrom (needle : List Char) : List Char → Nat → Option Nat
  | [], i => if needle = [] then some i else none
  | c :: s, i => if needle.isPrefixOf (c :: s) then some i else findFrom needle s (i + 1)

/-- `s.find(needle)`. -/
def std_string_find (s needle : String) : Option Nat :=
  findFrom needle.data s.data 0

/-! ## `nlohmann::json` -/

/-- `json::parse(text)`: throws `parse_error` on text that is not JSON. -/
def json_parse (env : Env) (text : String) : Prog Json := fun w =>
  match env.json_parse text with
  | some j => .ok j w
  | none => .stop .json_parse_error w

/-- Non-const `operator[](key)`: a null value becomes an empty object, a
missing member is inserted as null; anything but an object throws
`type_error` 305.  Returns the member and the value after the access. -/
def Json.subscript (j : Json) (key : String) : Prog (Json × Json) := fun w =>
  match j with
  | .null => .ok (.null, .object [(key, .null)]) w
  | .object kvs =>
    match kvs.lookup key with
    | some v => .ok (v, .object kvs) w
    | none => .ok (.null, .object (kvs ++ [(key, .null)])) w
  | _ => .stop .json_type_error w

/-- Const `operator[](key)`: the member must exist (an assertion guards
it); anything but an object throws `type_error` 305. -/
def Json.const_subscript (j : Json) (key : String) : Prog Json := fun w =>
  match j with
  | .object kvs =>
    match kvs.lookup key with
    | some v => .ok v w
    | none => .stop .assertion_failure w
  | _ => .stop .json_type_error w

/-- The implicit conversion to `std::string`: throws `type_error` 302 on
anything but a string. -/
def Json.get_string (j : Json) : Prog String := fun w =>
  match j with
  | .string s => .ok s w
  | _ => .stop .json_type_error w

/-- The values a range-based `for` visits: the elements of an array, the
member values of an object, nothing for null, the value itself otherwise. -/
def Json.items : Json → List Json
  | .null => []
  | .array xs => xs
  | .object kvs => kvs.map Prod.snd
  | j => [j]

/-! ## The program (`src/main.cpp`) -/

/-- Drop the trailing line feeds, carriage returns and blanks. -/
def trimEnd (message : String) : String :=
  String.mk (message.data.reverse.dropWhile (fun c => c == '\n' || c == '\r' || c == ' ')).reverse

/-- `GetErrorMessage` (lines 33-58); `FormatMessageA` is the environment. -/
def GetErrorMessage (env : Env) (errorCode : Nat) : String :=
  match env.formatMessage errorCode with
  | none => "Unknown error"
  | some messageBuffer =>
    if messageBuffer.length == 0 then "Unknown error" else trimEnd messageBuffer

/-- `CheckAttributes` (lines 61-74). -/
def CheckAttributes (env : Env) (path label : String) : Prog Unit := do
  let attributes ← GetFileAttributesA env path
  match attributes with
  | none => cerr ("Failed to get attributes for " ++ label ++ ": " ++ path)
  | some attributes =>
    cout ("Attributes for " ++ label ++ " (" ++ path ++ "): "
      ++ (if attributes &&& FILE_ATTRIBUTE_READONLY != 0 then "READONLY " else "")
      ++ (if attributes &&& FILE_ATTRIBUTE_HIDDEN != 0 then "HIDDEN " else "")
      ++ (if attributes &&& FILE_ATTRIBUTE_SYSTEM != 0 then "SYSTEM " else "")
      ++ (if attributes &&& FILE_ATTRIBUTE_DIRECTORY != 0 then "DIRECTORY " else ""))

/-- `ReadVersionFile` (lines 77-93). -/
def ReadVersionFile (env : Env) (versionFilePath : String) : Prog String := do
  if !(← fs_exists versionFilePath) then
    return ""
  if !(← ifstream_open env versionFilePath) then
    cerr ("Failed to open version file: " ++ versionFilePath)
    return ""
  let version ← getline versionFilePath
  return version

/-- `WriteVersionFile` (lines 96-107). -/
def WriteVersionFile (env : Env) (versionFilePath version : String) : Prog Bool := do
  if !(← ofstream_open env versionFilePath) then
    cerr ("Failed to create version file: " ++ versionFilePath)
    return false
  ofstream_write versionFilePath version
  return true

/-- `DownloadFile` (lines 110-202). -/
def DownloadFile (env : Env) (url outputPath : String) : Prog Bool := do
  if !(← curl_easy_init env) then
    cerr "Failed to initialize CURL"
    return false
  let tempPath := outputPath ++ ".tmp"
  if !(← fopen_wb env tempPath) then
    cerr ("Failed to open file for writing: " ++ tempPath)
    return false
  let tr ← curl_easy_perform_to_file env url tempPath
  let res := tr.res
  let responseCode := tr.responseCode
  let contentLength := tr.contentLength
  if res != 0 then
    cerr ("curl_easy_perform() failed: " ++ env.curl_easy_strerror res)
    let _ ← fs_remove env tempPath
    return false
  if responseCode != 200 then
    cerr ("HTTP request failed with response code: " ++ toString responseCode)
    let _ ← fs_remove env tempPath
    return false
  if !(← fs_exists tempPath) then
    cerr ("Downloaded file does not exist: " ++ tempPath)
    return false
  let fileSize ← fs_file_size tempPath
  if fileSize == 0 then
    cerr ("Downloaded file is empty (0 bytes): " ++ tempPath)
    let _ ← fs_remove env tempPath
    return false
  cout ("Downloaded file size: " ++ toString fileSize ++ " bytes")
  if contentLength > 0 && contentLength.toNat != fileSize then
    cerr ("Downloaded file size (" ++ toString fileSize
      ++ " bytes) does not match expected size (" ++ toString contentLength ++ " bytes)")
    let _ ← fs_remove env tempPath
    return false
  tryCatch
    (do
      if (← fs_exists outputPath) then
        let _ ← fs_remove env outputPath
      fs_rename env tempPath outputPath
      return true)
    isStdException
    (fun e => do
      cerr ("Failed to rename temporary file: " ++ env.what e)
      let _ ← fs_remove env tempPath
      return false)

/-- `~FILE_ATTRIBUTE_READONLY` as a `DWORD`. -/
def NOT_FILE_ATTRIBUTE_READONLY : Nat := 0xFFFFFFFE

/-- `RemoveReadOnlyAttribute` (lines 205-232). -/
def RemoveReadOnlyAttribute (env : Env) (filePath : String) : Prog Bool := do
  if !(← fs_is_regular_file filePath) then
    cerr ("Path is not a file: " ++ filePath)
    return false
  let attributes ← GetFileAttributesA env filePath
  match attributes with
  | none =>
    let error ← GetLastError env
    cerr ("Failed to get file attributes: " ++ filePath)
    cerr ("Error code: " ++ toString error ++ " - " ++ GetErrorMessage env error)
    return false
  | some attributes =>
    if attributes &&& FILE_ATTRIBUTE_READONLY != 0 then
      let attributes := attributes &&& NOT_FILE_ATTRIBUTE_READONLY
      if !(← SetFileAttributesA env filePath attributes) then
        let error ← GetLastError env
        cerr ("Failed to remove read-only attribute: " ++ filePath)
        cerr ("Error code: " ++ toString error ++ " - " ++ GetErrorMessage env error)
        return false
      cout ("Removed read-only attribute from: " ++ filePath)
    return true

/-- `SetReadOnlyAttribute` (lines 235-260). -/
def SetReadOnlyAttribute (env : Env) (filePath : String) : Prog Bool := do
  if !(← fs_is_regular_file filePath) then
    cerr ("Path is not a file: " ++ filePath)
    return false
  let attributes ← GetFileAttributesA env filePath
  match attributes with
  | none =>
    let error ← GetLastError env
    cerr ("Failed to get file attributes: " ++ filePath)
    cerr ("Error code: " ++ toString error ++ " - " ++ GetErrorMessage env error)
    return false
  | some attributes =>
    let attributes := attributes ||| FILE_ATTRIBUTE_READONLY
    if !(← SetFileAttributesA env filePath attributes) then
      let error ← GetLastError env
      cerr ("Failed to set read-only attribute: " ++ filePath)
      cerr ("Error code: " ++ toString error ++ " - " ++ GetErrorMessage env error)
      return false
    cout ("Set read-only attribute on: " ++ filePath)
    return true

/-- `GetVRChatToolsPath` (lines 263-288). -/
def GetVRChatToolsPath (env : Env) : Prog String := do
  match (← SHGetKnownFolderPath env) with
  | .error hr =>
    cerr ("Failed to get LocalAppDataLow folder path. Error code: " ++ toString hr)
    return ""
  | .ok localAppDataLow =>
    let vrchatToolsPath := localAppDataLow ++ "\\VRChat\\VRChat\\Tools"
    return vrchatToolsPath

/-- The registry endpoint of `FetchLatestReleaseInfo`. -/
def releasesLatestUrl : String := "https://api.github.com/repos/yt-dlp/yt-dlp/releases/latest"

/-- The loop of `FetchLatestReleaseInfo` (lines 345-355) over the values
still to visit: `some (downloadUrl, latestVersion)` when the body of the
loop returned `true`, `none` when the loop ran to its end. -/
def findYtDlpAsset (data : Json) : List Json → Prog (Option (String × String))
  | [] => pure none
  | asset :: rest => do
    let name ← Json.get_string (← Json.const_subscript asset "name")
    if name == "yt-dlp.exe" then
      let downloadUrl ← Json.get_string (← Json.const_subscript asset "browser_download_url")
      let latestVersion ← Json.get_string (← Json.subscript data "tag_name").1
      cout ("Latest version: " ++ latestVersion)
      cout ("Download URL: " ++ downloadUrl)
      return some (downloadUrl, latestVersion)
    else
      findYtDlpAsset data rest

/-- `FetchLatestReleaseInfo` (lines 291-363).  The two reference parameters
are passed in and handed back next to the result. -/
def FetchLatestReleaseInfo (env : Env) (downloadUrl latestVersion : String) :
    Prog (Bool × String × String) := do
  if !(← curl_easy_init env) then
    cerr "Failed to initialize CURL"
    return (false, downloadUrl, latestVersion)
  let tr ← curl_easy_perform_to_string env releasesLatestUrl
  let response := tr.body
  if tr.res != 0 then
    cerr ("curl_easy_perform() failed: " ++ env.curl_easy_strerror tr.res)
    return (false, downloadUrl, latestVersion)
  if tr.responseCode != 200 then
    cerr ("HTTP request failed with response code: " ++ toString tr.responseCode)
    return (false, downloadUrl, latestVersion)
  tryCatch
    (do
      let data ← json_parse env response
      let (assets, data) ← Json.subscript data "assets"
      match (← findYtDlpAsset data assets.items) with
      | some (downloadUrl, latestVersion) => return (true, downloadUrl, latestVersion)
      | none =>
        cerr "yt-dlp.exe asset not found in the latest release."
        return (false, downloadUrl, latestVersion))
    isJsonParseError
    (fun e => do
      cerr ("JSON parsing error: " ++ env.what e)
      return (false, downloadUrl, latestVersion))

/-- `UpdateYtDlp` (lines 366-467). -/
def UpdateYtDlp (env : Env) (vrchatToolsPath downloadUrl latestVersion : String) :
    Prog Bool := do
  let ytDlpPath := vrchatToolsPath ++ "\\yt-dlp.exe"
  let versionFilePath := vrchatToolsPath ++ "\\yt-dlp-version.txt"
  cout ("Using VRChat Tools directory: " ++ vrchatToolsPath)
  CheckAttributes env vrchatToolsPath "Tools directory (before)"
  if !(← fs_exists vrchatToolsPath) then
    cout ("Creating VRChat Tools directory: " ++ vrchatToolsPath)
    fs_create_directories env vrchatToolsPath
    CheckAttributes env vrchatToolsPath "Tools directory (after creation)"
  if (← fs_exists ytDlpPath) then
    cout ("Existing yt-dlp.exe found at: " ++ ytDlpPath)
    CheckAttributes env ytDlpPath "yt-dlp.exe (before)"
    if !(← RemoveReadOnlyAttribute env ytDlpPath) then
      cerr "Failed to remove read-only attribute. Aborting."
      return false
    CheckAttributes env ytDlpPath "yt-dlp.exe (after removing read-only)"
    cout "Deleting existing yt-dlp.exe..."
    if !(← fs_remove env ytDlpPath) then
      cerr "Failed to delete existing yt-dlp.exe. Aborting."
      return false
  cout ("Downloading latest yt-dlp.exe to: " ++ ytDlpPath)
  if !(← DownloadFile env downloadUrl ytDlpPath) then
    cerr "Failed to download yt-dlp.exe."
    return false
  cout "Successfully downloaded yt-dlp.exe!"
  let icaclsCommand := "icacls \"" ++ ytDlpPath ++ "\" /setintegritylevel medium"
  cout ("Setting integrity level to medium: " ++ icaclsCommand)
  if !(← fs_exists ytDlpPath) || !(← fs_is_regular_file ytDlpPath) then
    cerr ("Invalid file path for integrity level setting: " ++ ytDlpPath)
    return false
  let expectedDir := vrchatToolsPath
  if std_string_find ytDlpPath expectedDir != some 0 then
    cerr "Security check failed: yt-dlp.exe path is outside the expected directory"
    return false
  let result ← system_icacls_setintegritylevel_medium env icaclsCommand ytDlpPath
  if result != 0 then
    cerr ("Failed to set integrity level. Error code: " ++ toString result)
    return false
  cout "Successfully set integrity level to medium."
  CheckAttributes env ytDlpPath "yt-dlp.exe (before setting read-only)"
  if !(← SetReadOnlyAttribute env ytDlpPath) then
    cerr "Failed to set read-only attribute on the new file."
    return false
  cout "Successfully updated yt-dlp.exe and set read-only attribute!"
  CheckAttributes env ytDlpPath "yt-dlp.exe (after setting read-only)"
  if !(← WriteVersionFile env versionFilePath latestVersion) then
    cerr "Failed to update version file."
    return false
  cout ("Updated version file with version: " ++ latestVersion)
  CheckAttributes env vrchatToolsPath "Tools directory (after all operations)"
  return true

/-- The browsers `ConfigureYtDlp` offers. -/
def browsers : List String :=
  ["firefox", "brave", "chrome", "chromium", "edge", "opera", "safari", "vivaldi", "whale"]

/-- The prompt loop of `ConfigureYtDlp` (lines 506-514), by the number of
pending input lines: it ends at the first line holding a number from 1 to
the number of browsers, and never ends once the input has run out. -/
def selectBrowser : Nat → Prog Int
  | 0 => do
    cout "\nSelect a browser (1-9): "
    let _ ← cin_int
    cout "Invalid choice. Please try again."
    throwExn .hang
  | pending + 1 => do
    cout "\nSelect a browser (1-9): "
    match (← cin_int) with
    | some (some choice) =>
      if choice >= 1 && choice <= (browsers.length : Int) then
        return choice
      else
        cout "Invalid choice. Please try again."
        selectBrowser pending
    | _ =>
      cout "Invalid choice. Please try again."
      selectBrowser pending

/-- The number of pending input lines. -/
def pendingInput : Prog Nat := fun w => .ok w.stdin.length w

/-- `ConfigureYtDlp` (lines 470-527). -/
def ConfigureYtDlp (env : Env) (vrchatToolsPath : String) : Prog Bool := do
  let configPath := vrchatToolsPath ++ "\\yt-dlp.conf"
  if (← fs_exists configPath) then
    cout "yt-dlp.conf already exists."
    return true
  if !(← ofstream_open env configPath) then
    cerr "Failed to create yt-dlp.conf"
    return false
  ofstream_write configPath "--no-playlist\n"
  ofstream_write configPath "--no-warnings\n"
  ofstream_write configPath "--quiet\n"
  ofstream_write configPath "--no-progress\n"
  cout "\nAvailable browsers:"
  cout (String.join ((List.range browsers.length).map
    (fun i => toString (i + 1) ++ ". " ++ browsers.getD i "" ++ "\n")))
  cout ("\nNote: Firefox is preferred as Chrome-based browsers may fail to work "
    ++ "if they are running while loading videos.")
  let choice ← selectBrowser (← pendingInput)
  let browser := browsers.getD (choice - 1).toNat ""
  ofstream_write configPath ("--cookies-from-browser " ++ browser ++ "\n")
  cout ("Created yt-dlp.conf with selected browser: " ++ browser)
  return true

/-- `main` (lines 529-584); the result is the exit code.  The final
`std::cin.get()` only waits for a key and is left out. -/
def main (env : Env) : Prog Int := do
  let vrchatToolsPath ← GetVRChatToolsPath env
  if vrchatToolsPath.isEmpty then
    cerr "Failed to get VRChat Tools directory path. Aborting."
    return 1
  if !(← ConfigureYtDlp env vrchatToolsPath) then
    cerr "Failed to configure yt-dlp. Aborting."
    return 1
  let (fetched, downloadUrl, latestVersion) ← FetchLatestReleaseInfo env "" ""
  if !fetched then
    cerr "Failed to fetch latest release information. Aborting."
    return 1
  let versionFilePath := vrchatToolsPath ++ "\\yt-dlp-version.txt"
  let currentVersion ← ReadVersionFile env versionFilePath
  cout ("Current version: " ++ (if currentVersion.isEmpty then "Unknown" else currentVersion))
  let updateNeeded := currentVersion != latestVersion
  if !updateNeeded then
    cout ("yt-dlp.exe is already up to date (version " ++ currentVersion ++ ").")
  else
    cout ("Update needed: " ++ currentVersion ++ " -> " ++ latestVersion)
    if !(← UpdateYtDlp env vrchatToolsPath downloadUrl latestVersion) then
      cerr "Failed to update yt-dlp.exe. Aborting."
      return 1
  cout "\nPress any key to exit..."
  return 0

/-! ## The update transaction, step by step

The five fragments of `UpdateYtDlp` between which it can abort, each with
the locals of `UpdateYtDlp` it uses as parameters, and the transaction of
the specification that runs such steps. -/

/-- Lines 370-382 of `UpdateYtDlp`: the managed directory is created when
it is missing. -/
def UpdateYtDlp_prepare (env : Env) (vrchatToolsPath : String) : Prog Unit := do
  cout ("Using VRChat Tools directory: " ++ vrchatToolsPath)
  CheckAttributes env vrchatToolsPath "Tools directory (before)"
  if !(← fs_exists vrchatToolsPath) then
    cout ("Creating VRChat Tools directory: " ++ vrchatToolsPath)
    fs_create_directories env vrchatToolsPath
    CheckAttributes env vrchatToolsPath "Tools directory (after creation)"

/-- Lines 384-406 of `UpdateYtDlp`: an existing artifact is unlocked and
deleted. -/
def UpdateYtDlp_unlock (env : Env) (ytDlpPath : String) : Prog Bool := do
  if (← fs_exists ytDlpPath) then
    cout ("Existing yt-dlp.exe found at: " ++ ytDlpPath)
    CheckAttributes env ytDlpPath "yt-dlp.exe (before)"
    if !(← RemoveReadOnlyAttribute env ytDlpPath) then
      cerr "Failed to remove read-only attribute. Aborting."
      return false
    CheckAttributes env ytDlpPath "yt-dlp.exe (after removing read-only)"
    cout "Deleting existing yt-dlp.exe..."
    if !(← fs_remove env ytDlpPath) then
      cerr "Failed to delete existing yt-dlp.exe. Aborting."
      return false
  return true

/-- Lines 408-415 of `UpdateYtDlp`: download and install. -/
def UpdateYtDlp_download (env : Env) (downloadUrl ytDlpPath : String) : Prog Bool := do
  cout ("Downloading latest yt-dlp.exe to: " ++ ytDlpPath)
  if !(← DownloadFile env downloadUrl ytDlpPath) then
    cerr "Failed to download yt-dlp.exe."
    return false
  cout "Successfully downloaded yt-dlp.exe!"
  return true

/-- Lines 417-439 of `UpdateYtDlp`: the integrity level, behind the checks
of the path. -/
def UpdateYtDlp_integrity (env : Env) (vrchatToolsPath ytDlpPath : String) : Prog Bool := do
  let icaclsCommand := "icacls \"" ++ ytDlpPath ++ "\" /setintegritylevel medium"
  cout ("Setting integrity level to medium: " ++ icaclsCommand)
  if !(← fs_exists ytDlpPath) || !(← fs_is_regular_file ytDlpPath) then
    cerr ("Invalid file path for integrity level setting: " ++ ytDlpPath)
    return false
  let expectedDir := vrchatToolsPath
  if std_string_find ytDlpPath expectedDir != some 0 then
    cerr "Security check failed: yt-dlp.exe path is outside the expected directory"
    return false
  let result ← system_icacls_setintegritylevel_medium env icaclsCommand ytDlpPath
  if result != 0 then
    cerr ("Failed to set integrity level. Error code: " ++ toString result)
    return false
  cout "Successfully set integrity level to medium."
  return true

/-- Lines 441-453 of `UpdateYtDlp`: the read-only attribute. -/
def UpdateYtDlp_readonly (env : Env) (ytDlpPath : String) : Prog Bool := do
  CheckAttributes env ytDlpPath "yt-dlp.exe (before setting read-only)"
  if !(← SetReadOnlyAttribute env ytDlpPath) then
    cerr "Failed to set read-only attribute on the new file."
    return false
  cout "Successfully updated yt-dlp.exe and set read-only attribute!"
  CheckAttributes env ytDlpPath "yt-dlp.exe (after setting read-only)"
  return true

/-- Lines 455-466 of `UpdateYtDlp`: the version marker. -/
def UpdateYtDlp_version (env : Env) (vrchatToolsPath versionFilePath latestVersion : String) :
    Prog Bool := do
  if !(← WriteVersionFile env versionFilePath latestVersion) then
    cerr "Failed to update version file."
    return false
  cout ("Updated version file with version: " ++ latestVersion)
  CheckAttributes env vrchatToolsPath "Tools directory (after all operations)"
  return true

/-- Lines 190-201 of `DownloadFile`: the staged file is moved into place. -/
def DownloadFile_install (env : Env) (tempPath outputPath : String) : Prog Bool :=
  tryCatch
    (do
      if (← fs_exists outputPath) then
        let _ ← fs_remove env outputPath
      fs_rename env tempPath outputPath
      return true)
    isStdException
    (fun e => do
      cerr ("Failed to rename temporary file: " ++ env.what e)
      let _ ← fs_remove env tempPath
      return false)

/-- Lines 154-201 of `DownloadFile`: what follows the transfer `tr`, the
checks of the staged file and its installation. -/
def DownloadFile_validate (env : Env) (tempPath outputPath : String) (tr : Transfer) :
    Prog Bool := do
  let res := tr.res
  let responseCode := tr.responseCode
  let contentLength := tr.contentLength
  if res != 0 then
    cerr ("curl_easy_perform() failed: " ++ env.curl_easy_strerror res)
    let _ ← fs_remove env tempPath
    return false
  if responseCode != 200 then
    cerr ("HTTP request failed with response code: " ++ toString responseCode)
    let _ ← fs_remove env tempPath
    return false
  if !(← fs_exists tempPath) then
    cerr ("Downloaded file does not exist: " ++ tempPath)
    return false
  let fileSize ← fs_file_size tempPath
  if fileSize == 0 then
    cerr ("Downloaded file is empty (0 bytes): " ++ tempPath)
    let _ ← fs_remove env tempPath
    return false
  cout ("Downloaded file size: " ++ toString fileSize ++ " bytes")
  if contentLength > 0 && contentLength.toNat != fileSize then
    cerr ("Downloaded file size (" ++ toString fileSize
      ++ " bytes) does not match expected size (" ++ toString contentLength ++ " bytes)")
    let _ ← fs_remove env tempPath
    return false
  DownloadFile_install env tempPath outputPath

/-- The transaction of the specification (4.5, step 6): the steps run in
order; the first one that fails aborts the run, which then returns `false`
without running any later step; the run returns `true` when all did. -/
def runSteps : List (Prog Bool) → Prog Bool
  | [] => pure true
  | step :: rest => do
    if !(← step) then
      return false
    runSteps rest

/-- The part of `main` from line 557 on, once the tools path, the download
URL and the latest version are known. -/
def main_update (env : Env) (vrchatToolsPath downloadUrl latestVersion : String) : Prog Int := do
  let versionFilePath := vrchatToolsPath ++ "\\yt-dlp-version.txt"
  let currentVersion ← ReadVersionFile env versionFilePath
  cout ("Current version: " ++ (if currentVersion.isEmpty then "Unknown" else currentVersion))
  let updateNeeded := currentVersion != latestVersion
  if !updateNeeded then
    cout ("yt-dlp.exe is already up to date (version " ++ currentVersion ++ ").")
  else
    cout ("Update needed: " ++ currentVersion ++ " -> " ++ latestVersion)
    if !(← UpdateYtDlp env vrchatToolsPath downloadUrl latestVersion) then
      cerr "Failed to update yt-dlp.exe. Aborting."
      return 1
  cout "\nPress any key to exit..."
  return 0

/-! ## Vocabulary of the statements -/

/-- The event is a network transfer. -/
def Event.isTransfer : Event → Bool
  | .curl_easy_perform _ _ => true
  | _ => false

/-- The event is the start of an external command. -/
def Event.isSystem : Event → Bool
  | .system _ => true
  | _ => false

/-- The event is a console line. -/
def Event.isConsole : Event → Bool
  | .cout _ => true
  | .cerr _ => true
  | _ => false

/-- A program stays within `T` and `K`: whatever its outcome, it leaves
every path outside `T` as it was, and it only adds events of kind `K` to
the trace. -/
structure Prog.Within {α : Type} (m : Prog α) (T : String → Prop) (K : Event → Prop) :
    Prop where
  frame : ∀ w q, ¬ T q → (m w).world.fs q = w.fs q
  trace : ∀ w, ∃ t, (m w).world.trace = w.trace ++ t ∧ ∀ e ∈ t, K e

/-- The transfer did not pass the validation of `DownloadFile`: nothing was
received, or a positive expected length was reported and the size differs. -/
def Transfer.rejected (tr : Transfer) : Prop :=
  tr.body.length = 0 ∨ (0 < tr.contentLength ∧ tr.contentLength.toNat ≠ tr.body.length)

instance (tr : Transfer) : Decidable tr.rejected := by
  unfold Transfer.rejected
  exact inferInstance

/-- Member `key` of an object. -/
def Json.field? : Json → String → Option Json
  | .object kvs, key => kvs.lookup key
  | _, _ => none

/-- The text of a string value. -/
def Json.string? : Json → Option String
  | .string s => some s
  | _ => none

/-- The `name` of a release asset, when it is an object with that string. -/
def assetName? (asset : Json) : Option String :=
  (asset.field? "name").bind Json.string?

/-- The `browser_download_url` of a release asset. -/
def assetUrl? (asset : Json) : Option String :=
  (asset.field? "browser_download_url").bind Json.string?

/-- An asset of the expected shape: an object with a string `name` and a
string `browser_download_url`. -/
def WellFormedAsset (asset : Json) : Prop :=
  (assetName? asset).isSome ∧ (assetUrl? asset).isSome

instance (asset : Json) : Decidable (WellFormedAsset asset) :=
  inferInstanceAs (Decidable (_ ∧ _))

/-- The parsing part of `FetchLatestReleaseInfo` (lines 337-362), run on the
response text received. -/
def FetchLatestReleaseInfo_parse (env : Env) (response downloadUrl latestVersion : String) :
    Prog (Bool × String × String) :=
  tryCatch
    (do
      let data ← json_parse env response
      let (assets, data) ← Json.subscript data "assets"
      match (← findYtDlpAsset data assets.items) with
      | some (downloadUrl, latestVersion) => return (true, downloadUrl, latestVersion)
      | none =>
        cerr "yt-dlp.exe asset not found in the latest release."
        return (false, downloadUrl, latestVersion))
    isJsonParseError
    (fun e => do
      cerr ("JSON parsing error: " ++ env.what e)
      return (false, downloadUrl, latestVersion))

/-! ## Concrete environments and worlds -/

/-- The managed directory of the examples. -/
def toolsDir : String := "C:\\Users\\u\\AppData\\LocalLow\\VRChat\\VRChat\\Tools"

/-- A download location. -/
def exampleUrl : String := "https://example.invalid/download/yt-dlp.exe"

/-- A registry answer for release `tag` whose assets carry the given names. -/
def releaseJson (tag : String) (names : List String) : Json :=
  .object [("assets", .array (names.map fun n =>
      .object [("browser_download_url", .string ("https://example.invalid/download/" ++ n)),
        ("name", .string n)])),
    ("tag_name", .string tag)]

/-- The JSON text of `releaseJson tag names`. -/
def releaseText (tag : String) (names : List String) : String :=
  "\x7b\"tag_name\":\"" ++ tag ++ "\",\"assets\":["
    ++ ",".intercalate (names.map fun n =>
      "\x7b\"name\":\"" ++ n ++ "\",\"browser_download_url\":\"https://example.invalid/download/"
        ++ n ++ "\"\x7d")
    ++ "]\x7d"

/-- An environment: `faulty` tells which calls the platform refuses; the
registry answers every request with status 200 and the text `body`, which
parses as `parsed` tells; every other transfer is `download`; `icacls` exits
with `code`. -/
def exampleEnv (faulty : Event → Bool) (body : String) (parsed : Option Json)
    (download : Transfer) (code : Int) : Env where
  fault := fun call _ => faulty call
  transfer := fun url _ =>
    if url = releasesLatestUrl then ⟨0, 200, -1, body⟩ else download
  exitCode := fun _ _ => code
  lastError := fun _ => 5
  formatMessage := fun _ => some "Access is denied.\r\n"
  json_parse := fun text => if text = body then parsed else none
  localAppDataLow := .ok "C:\\Users\\u\\AppData\\LocalLow"
  curl_easy_strerror := fun _ => "transfer failed"
  what := fun _ => "filesystem error"

/-- No call is refused. -/
def noFault : Event → Bool := fun _ => false

/-- Every `fs::rename` is refused. -/
def renameFault : Event → Bool
  | .fs_rename _ _ => true
  | _ => false

/-- Every `fs::remove` is refused. -/
def removeFault : Event → Bool
  | .fs_remove _ => true
  | _ => false

/-- A download of three bytes with the matching expected length. -/
def goodDownload : Transfer := ⟨0, 200, 3, "NEW"⟩

/-- A download of three bytes where ten were announced. -/
def shortDownload : Transfer := ⟨0, 200, 10, "NEW"⟩

/-- The healthy environment: release 2024.01.01 with a `yt-dlp.exe` asset. -/
def envOk : Env :=
  exampleEnv noFault (releaseText "2024.01.01" ["yt-dlp", "yt-dlp.exe"])
    (some (releaseJson "2024.01.01" ["yt-dlp", "yt-dlp.exe"])) goodDownload 0

/-- As `envOk`, but the download is cut short. -/
def envShort : Env :=
  exampleEnv noFault (releaseText "2024.01.01" ["yt-dlp", "yt-dlp.exe"])
    (some (releaseJson "2024.01.01" ["yt-dlp", "yt-dlp.exe"])) shortDownload 0

/-- As `envOk`, but the platform refuses every rename. -/
def envRenameFault : Env :=
  exampleEnv renameFault (releaseText "2024.01.01" ["yt-dlp", "yt-dlp.exe"])
    (some (releaseJson "2024.01.01" ["yt-dlp", "yt-dlp.exe"])) goodDownload 0

/-- As `envOk`, but the platform refuses every removal of a file. -/
def envRemoveFault : Env :=
  exampleEnv removeFault (releaseText "2024.01.01" ["yt-dlp", "yt-dlp.exe"])
    (some (releaseJson "2024.01.01" ["yt-dlp", "yt-dlp.exe"])) goodDownload 0

/-- As `envShort`, but the platform refuses every removal of a file. -/
def envShortRemoveFault : Env :=
  exampleEnv removeFault (releaseText "2024.01.01" ["yt-dlp", "yt-dlp.exe"])
    (some (releaseJson "2024.01.01" ["yt-dlp", "yt-dlp.exe"])) shortDownload 0

/-- The registry answers with a release whose tag is the empty string. -/
def envEmptyTag : Env :=
  exampleEnv noFault (releaseText "" ["yt-dlp.exe"]) (some (releaseJson "" ["yt-dlp.exe"]))
    goodDownload 0

/-- The registry answers status 200 with the JSON text `[]`. -/
def envArrayBody : Env :=
  exampleEnv noFault "[]" (some (.array [])) goodDownload 0

/-- The registry answers with a release that has no `yt-dlp.exe` asset. -/
def envNoAsset : Env :=
  exampleEnv noFault (releaseText "2024.01.01" ["yt-dlp", "yt-dlp_linux"])
    (some (releaseJson "2024.01.01" ["yt-dlp", "yt-dlp_linux"])) goodDownload 0

/-- The registry answers with a release object without a `tag_name`. -/
def envNoTag : Env :=
  exampleEnv noFault
    "\x7b\"assets\":[\x7b\"name\":\"yt-dlp.exe\",\"browser_download_url\":\"u\"\x7d]\x7d"
    (some (.object [("assets", .array [.object [("browser_download_url", .string "u"),
      ("name", .string "yt-dlp.exe")]])])) goodDownload 0

/-- The registry answers status 200 with text that is not JSON. -/
def envNotJson : Env :=
  exampleEnv noFault "<html>Service unavailable</html>" none goodDownload 0

/-- A managed directory holding the configuration file, and optionally an
artifact and a version marker. -/
def exampleWorld (artifact marker : Option Node) : World where
  fs := fun p =>
    if p = toolsDir then some (.dir FILE_ATTRIBUTE_DIRECTORY)
    else if p = toolsDir ++ "\\yt-dlp.conf" then
      some (.file "--no-playlist\n" FILE_ATTRIBUTE_ARCHIVE none)
    else if p = toolsDir ++ "\\yt-dlp.exe" then artifact
    else if p = toolsDir ++ "\\yt-dlp-version.txt" then marker
    else none
  trace := []
  stdin := []

/-- The locked artifact of an earlier release. -/
def oldArtifact : Node := .file "OLD" 0x21 (some .medium)

/-- The artifact of an earlier release with its read-only attribute cleared. -/
def unlockedArtifact : Node := .file "OLD" FILE_ATTRIBUTE_ARCHIVE (some .medium)

/-- Version 2023.12.01 is installed and its artifact is unlocked. -/
def wUnlocked : World :=
  exampleWorld (some unlockedArtifact) (some (.file "2023.12.01" FILE_ATTRIBUTE_ARCHIVE none))

/-- Version 2023.12.01 is installed. -/
def wInstalled : World :=
  exampleWorld (some oldArtifact) (some (.file "2023.12.01" FILE_ATTRIBUTE_ARCHIVE none))

/-- Version 2024.01.01 is installed. -/
def wCurrent : World :=
  exampleWorld (some oldArtifact) (some (.file "2024.01.01" FILE_ATTRIBUTE_ARCHIVE none))

/-- As `wFresh` below, with a regular file outside the managed directory. -/
def wOutside : World where
  fs := fun p =>
    if p = "C:\\Elsewhere\\yt-dlp.exe" then some (.file "NEW" FILE_ATTRIBUTE_ARCHIVE none)
    else if p = toolsDir then some (.dir FILE_ATTRIBUTE_DIRECTORY)
    else none
  trace := []
  stdin := []

/-- Nothing is installed and there is no version marker. -/
def wFresh : World := exampleWorld none none

/-- Nothing is installed and the version marker is an empty file. -/
def wEmptyMarker : World :=
  exampleWorld none (some (.file "" FILE_ATTRIBUTE_ARCHIVE none))

/-! ## The sequencing of programs -/

@[simp] theorem Prog.bind_apply {α β : Type} (m : Prog α) (f : α → Prog β) (w : World) :
    (m >>= f) w = match m w with
      | .ok a w1 => f a w1
      | .stop e w1 => .stop e w1 := rfl

@[simp] theorem Prog.pure_apply {α : Type} (a : α) (w : World) :
    (pure a : Prog α) w = .ok a w := rfl

theorem Prog.bind_bind {α β γ : Type} (m : Prog α) (f : α → Prog β) (g : β → Prog γ) :
    (m >>= f) >>= g = m >>= fun a => f a >>= g := by
  funext w
  simp only [Prog.bind_apply]
  cases m w <;> rfl

theorem Prog.pure_then {α β : Type} (a : α) (f : α → Prog β) : pure a >>= f = f a := rfl

theorem Prog.ite_then {α β : Type} (c : Prop) [Decidable c] (t e : Prog α) (f : α → Prog β) :
    (if c then t else e) >>= f = if c then t >>= f else e >>= f := by
  split <;> rfl

/-- `UpdateYtDlp` is the preparation of the directory followed by the
transaction over its five fragments. -/
theorem UpdateYtDlp_eq_runSteps (env : Env) (d u v : String) :
    UpdateYtDlp env d u v = (do
      UpdateYtDlp_prepare env d
      runSteps [UpdateYtDlp_unlock env (d ++ "\\yt-dlp.exe"),
        UpdateYtDlp_download env u (d ++ "\\yt-dlp.exe"),
        UpdateYtDlp_integrity env d (d ++ "\\yt-dlp.exe"),
        UpdateYtDlp_readonly env (d ++ "\\yt-dlp.exe"),
        UpdateYtDlp_version env d (d ++ "\\yt-dlp-version.txt") v]) := by
  simp only [UpdateYtDlp, UpdateYtDlp_prepare, runSteps, UpdateYtDlp_unlock, UpdateYtDlp_download,
    UpdateYtDlp_integrity, UpdateYtDlp_readonly, UpdateYtDlp_version,
    Prog.bind_bind, Prog.pure_then, Prog.ite_then, Bool.not_true, Bool.not_false,
    Bool.false_eq_true, if_false, if_true]

/-- `main` is its prologue followed by `main_update`. -/
theorem main_eq (env : Env) :
    main env = (do
      let vrchatToolsPath ← GetVRChatToolsPath env
      if vrchatToolsPath.isEmpty then
        cerr "Failed to get VRChat Tools directory path. Aborting."
        return 1
      else
        if !(← ConfigureYtDlp env vrchatToolsPath) then
          cerr "Failed to configure yt-dlp. Aborting."
          return 1
        else
          let (fetched, downloadUrl, latestVersion) ← FetchLatestReleaseInfo env "" ""
          if !fetched then
            cerr "Failed to fetch latest release information. Aborting."
            return 1
          else
            main_update env vrchatToolsPath downloadUrl latestVersion) := by
  simp only [main, main_update, Prog.bind_bind, Prog.pure_then, Prog.ite_then]

/-! ## Paths -/

theorem String.append_right_ne (s a b : String) (h : a ≠ b) : s ++ a ≠ s ++ b := by
  intro heq
  apply h
  have h1 := congrArg String.data heq
  simp only [String.data_append] at h1
  exact String.ext (List.append_cancel_left h1)

theorem String.append_ne_self (s a : String) (h : a ≠ "") : s ++ a ≠ s := by
  intro heq
  apply h
  have h1 := congrArg String.data heq
  simp only [String.data_append] at h1
  have h2 : a.data = [] := by
    have := congrArg List.length h1
    simp only [List.length_append] at this
    exact List.eq_nil_of_length_eq_zero (by omega)
  exact String.ext h2

theorem exe_ne_version (d : String) : d ++ "\\yt-dlp.exe" ≠ d ++ "\\yt-dlp-version.txt" :=
  String.append_right_ne d _ _ (by decide)

theorem exe_ne_conf (d : String) : d ++ "\\yt-dlp.exe" ≠ d ++ "\\yt-dlp.conf" :=
  String.append_right_ne d _ _ (by decide)

theorem version_ne_conf (d : String) : d ++ "\\yt-dlp-version.txt" ≠ d ++ "\\yt-dlp.conf" :=
  String.append_right_ne d _ _ (by decide)

theorem tmp_ne_self (p : String) : p ++ ".tmp" ≠ p :=
  String.append_ne_self p _ (by decide)

theorem exe_tmp_ne_version (d : String) :
    d ++ "\\yt-dlp.exe" ++ ".tmp" ≠ d ++ "\\yt-dlp-version.txt" := by
  rw [String.append_assoc]
  exact String.append_right_ne d _ _ (by decide)

theorem exe_ne_dir (d : String) : d ++ "\\yt-dlp.exe" ≠ d :=
  String.append_ne_self d _ (by decide)

theorem version_ne_dir (d : String) : d ++ "\\yt-dlp-version.txt" ≠ d :=
  String.append_ne_self d _ (by decide)

/-! ## The file system map -/

theorem fsSet_same (fs : String → Option Node) (p : String) (n : Option Node) :
    fsSet fs p n p = n := by
  simp [fsSet]

theorem fsSet_of_ne (fs : String → Option Node) {p q : String} (n : Option Node) (h : q ≠ p) :
    fsSet fs p n q = fs q := by
  simp [fsSet, h]

theorem fsAppend_of_ne (fs : String → Option Node) {p q : String} (text : String) (h : q ≠ p) :
    fsAppend fs p text q = fs q := by
  unfold fsAppend
  cases hp : fs p with
  | none => rfl
  | some n =>
    cases n with
    | dir a => rfl
    | file c a l => exact fsSet_of_ne fs _ h

theorem fsSetIntegrity_of_ne (fs : String → Option Node) {p q : String} (l : IntegrityLevel)
    (h : q ≠ p) : fsSetIntegrity fs p l q = fs q := by
  unfold fsSetIntegrity
  cases hp : fs p with
  | none => rfl
  | some n =>
    cases n with
    | dir a => rfl
    | file c a l => exact fsSet_of_ne fs _ h

theorem fsAppend_file (fs : String → Option Node) (p c text : String) (a : Nat)
    (l : Option IntegrityLevel) (h : fs p = some (.file c a l)) :
    fsAppend fs p text p = some (.file (c ++ text) a l) := by
  unfold fsAppend
  rw [h]
  exact fsSet_same fs p _

theorem fsSetIntegrity_file (fs : String → Option Node) (p c : String) (a : Nat)
    (l : Option IntegrityLevel) (lvl : IntegrityLevel) (h : fs p = some (.file c a l)) :
    fsSetIntegrity fs p lvl p = some (.file c a (some lvl)) := by
  unfold fsSetIntegrity
  rw [h]
  exact fsSet_same fs p _

theorem fsAppend_fsSet_file (fs : String → Option Node) (p c text : String) (a : Nat)
    (l : Option IntegrityLevel) :
    fsAppend (fsSet fs p (some (.file c a l))) p text = fsSet fs p (some (.file (c ++ text) a l)) := by
  funext q
  unfold fsAppend
  rw [fsSet_same]
  simp only [fsSet]
  split <;> rfl

theorem fsSet_fsSet (fs : String → Option Node) (p : String) (m n : Option Node) :
    fsSet (fsSet fs p m) p n = fsSet fs p n := by
  funext q
  simp only [fsSet]
  split <;> rfl

/-! ## Programs that stay within a set of paths and a kind of events -/

theorem within_of {α : Type} {m : Prog α} {T : String → Prop} {K : Event → Prop}
    (h : ∀ w, (∀ q, ¬ T q → (m w).world.fs q = w.fs q) ∧
      ∃ t, (m w).world.trace = w.trace ++ t ∧ ∀ e ∈ t, K e) : m.Within T K :=
  ⟨fun w => (h w).1, fun w => (h w).2⟩

theorem within_mono {α : Type} {m : Prog α} {T T2 : String → Prop} {K K2 : Event → Prop}
    (h : m.Within T K) (hT : ∀ q, T q → T2 q) (hK : ∀ e, K e → K2 e) : m.Within T2 K2 := by
  apply within_of
  intro w
  refine ⟨fun q hq => h.frame w q (fun hh => hq (hT q hh)), ?_⟩
  obtain ⟨t, ht, hk⟩ := h.trace w
  exact ⟨t, ht, fun e he => hK e (hk e he)⟩

/-- A program that leaves the world as it is. -/
theorem within_of_silent {α : Type} {m : Prog α} (T : String → Prop) (K : Event → Prop)
    (h : ∀ w, (m w).world = w) : m.Within T K :=
  within_of fun w => ⟨fun _ _ => by rw [h w], [], by rw [h w]; simp, by simp⟩

/-- A program that adds one event and changes at most the path `p`. -/
theorem within_of_event {α : Type} {m : Prog α} {T : String → Prop} {K : Event → Prop}
    (p : String) (e : Event) (hT : T p) (hK : K e)
    (hfs : ∀ w q, q ≠ p → (m w).world.fs q = w.fs q)
    (htr : ∀ w, (m w).world.trace = w.trace ++ [e]) : m.Within T K :=
  within_of fun w => ⟨fun q hq => hfs w q (fun h => hq (h ▸ hT)), [e], htr w, by simpa using hK⟩

/-- A program that adds one event and leaves the file system as it is. -/
theorem within_of_call {α : Type} {m : Prog α} {T : String → Prop} {K : Event → Prop}
    (e : Event) (hK : K e)
    (hfs : ∀ w, (m w).world.fs = w.fs)
    (htr : ∀ w, (m w).world.trace = w.trace ++ [e]) : m.Within T K :=
  within_of fun w => ⟨fun q _ => by rw [hfs w], [e], htr w, by simpa using hK⟩

theorem within_pure {α : Type} (a : α) (T : String → Prop) (K : Event → Prop) :
    (pure a : Prog α).Within T K :=
  within_of_silent T K fun _ => rfl

theorem within_throwExn {α : Type} (x : Exn) (T : String → Prop) (K : Event → Prop) :
    (throwExn x : Prog α).Within T K :=
  within_of_silent T K fun _ => rfl

theorem within_bind {α β : Type} {m : Prog α} {f : α → Prog β} {T : String → Prop}
    {K : Event → Prop} (hm : m.Within T K) (hf : ∀ a, (f a).Within T K) :
    (m >>= f).Within T K := by
  apply within_of
  intro w
  have h1 := hm.frame w
  obtain ⟨t1, ht1, hk1⟩ := hm.trace w
  simp only [Prog.bind_apply]
  cases hmw : m w with
  | stop x w1 =>
    rw [hmw] at h1 ht1
    exact ⟨h1, t1, ht1, hk1⟩
  | ok a w1 =>
    rw [hmw] at h1 ht1
    have h2 := (hf a).frame w1
    obtain ⟨t2, ht2, hk2⟩ := (hf a).trace w1
    simp only [Res.world] at h1 ht1
    refine ⟨fun q hq => (h2 q hq).trans (h1 q hq), t1 ++ t2, ?_, ?_⟩
    · rw [ht2, ht1, List.append_assoc]
    · intro e he
      rcases List.mem_append.1 he with h | h
      · exact hk1 e h
      · exact hk2 e h

theorem within_tryCatch {α : Type} {body : Prog α} {catches : Exn → Bool}
    {handler : Exn → Prog α} {T : String → Prop} {K : Event → Prop}
    (hb : body.Within T K) (hh : ∀ x, (handler x).Within T K) :
    (tryCatch body catches handler).Within T K := by
  apply within_of
  intro w
  have h1 := hb.frame w
  obtain ⟨t1, ht1, hk1⟩ := hb.trace w
  unfold tryCatch
  cases hbw : body w with
  | ok a w1 =>
    rw [hbw] at h1 ht1
    exact ⟨h1, t1, ht1, hk1⟩
  | stop x w1 =>
    rw [hbw] at h1 ht1
    dsimp only
    split
    · have h2 := (hh x).frame w1
      obtain ⟨t2, ht2, hk2⟩ := (hh x).trace w1
      simp only [Res.world] at h1 ht1
      refine ⟨fun q hq => (h2 q hq).trans (h1 q hq), t1 ++ t2, ?_, ?_⟩
      · rw [ht2, ht1, List.append_assoc]
      · intro e he
        rcases List.mem_append.1 he with h | h
        · exact hk1 e h
        · exact hk2 e h
    · exact ⟨h1, t1, ht1, hk1⟩

theorem within_ite {α : Type} {c : Prop} [Decidable c] {t e : Prog α} {T : String → Prop}
    {K : Event → Prop} (ht : t.Within T K) (he : e.Within T K) :
    (if c then t else e).Within T K := by
  split
  · exact ht
  · exact he

theorem within_cout (s : String) (T : String → Prop) (K : Event → Prop) (h : K (.cout s)) :
    (cout s).Within T K :=
  within_of_call (.cout s) h (fun _ => rfl) (fun _ => rfl)

theorem within_cerr (s : String) (T : String → Prop) (K : Event → Prop) (h : K (.cerr s)) :
    (cerr s).Within T K :=
  within_of_call (.cerr s) h (fun _ => rfl) (fun _ => rfl)

theorem within_fs_exists (p : String) (T : String → Prop) (K : Event → Prop) :
    (fs_exists p).Within T K :=
  within_of_silent T K fun _ => rfl

theorem within_fs_is_regular_file (p : String) (T : String → Prop) (K : Event → Prop) :
    (fs_is_regular_file p).Within T K :=
  within_of_silent T K fun w => by
    unfold fs_is_regular_file
    split <;> rfl

theorem within_fs_file_size (p : String) (T : String → Prop) (K : Event → Prop) :
    (fs_file_size p).Within T K :=
  within_of_silent T K fun w => by
    unfold fs_file_size
    split <;> rfl

theorem within_GetLastError (env : Env) (T : String → Prop) (K : Event → Prop) :
    (GetLastError env).Within T K :=
  within_of_silent T K fun _ => rfl

theorem within_getline (p : String) (T : String → Prop) (K : Event → Prop) :
    (getline p).Within T K :=
  within_of_silent T K fun w => by
    unfold getline
    split <;> rfl

theorem within_pendingInput (T : String → Prop) (K : Event → Prop) :
    pendingInput.Within T K :=
  within_of_silent T K fun _ => rfl

theorem within_json_parse (env : Env) (text : String) (T : String → Prop) (K : Event → Prop) :
    (json_parse env text).Within T K :=
  within_of_silent T K fun w => by
    unfold json_parse
    split <;> rfl

theorem within_subscript (j : Json) (key : String) (T : String → Prop) (K : Event → Prop) :
    (j.subscript key).Within T K :=
  within_of_silent T K fun w => by
    unfold Json.subscript
    split
    · rfl
    · split <;> rfl
    · rfl

theorem within_const_subscript (j : Json) (key : String) (T : String → Prop)
    (K : Event → Prop) : (j.const_subscript key).Within T K :=
  within_of_silent T K fun w => by
    unfold Json.const_subscript
    split
    · split <;> rfl
    · rfl

theorem within_get_string (j : Json) (T : String → Prop) (K : Event → Prop) :
    j.get_string.Within T K :=
  within_of_silent T K fun w => by
    unfold Json.get_string
    split <;> rfl

theorem within_fs_remove (env : Env) (p : String) (T : String → Prop) (K : Event → Prop)
    (hT : T p) (hK : K (.fs_remove p)) : (fs_remove env p).Within T K := by
  apply within_of_event p (.fs_remove p) hT hK
  · intro w q hq
    unfold fs_remove
    dsimp only
    split
    · rfl
    · split
      · rfl
      · exact fsSet_of_ne _ _ hq
  · intro w
    unfold fs_remove
    dsimp only
    split
    · rfl
    · split <;> rfl

theorem within_fs_rename (env : Env) (src dst : String) (T : String → Prop) (K : Event → Prop)
    (hs : T src) (hd : T dst) (hK : K (.fs_rename src dst)) :
    (fs_rename env src dst).Within T K := by
  apply within_of
  intro w
  refine ⟨fun q hq => ?_, [.fs_rename src dst], ?_, by simpa using hK⟩
  · have h1 : q ≠ src := fun h => hq (h ▸ hs)
    have h2 : q ≠ dst := fun h => hq (h ▸ hd)
    unfold fs_rename
    dsimp only
    split
    · rfl
    · rfl
    · split
      · rfl
      · simp only [Res.world]
        rw [fsSet_of_ne _ _ h2, fsSet_of_ne _ _ h1]
  · unfold fs_rename
    dsimp only
    split
    · rfl
    · rfl
    · split <;> rfl

theorem within_fs_create_directories (env : Env) (p : String) (T : String → Prop)
    (K : Event → Prop) (hT : T p) (hK : K (.fs_create_directories p)) :
    (fs_create_directories env p).Within T K := by
  apply within_of_event p (.fs_create_directories p) hT hK
  · intro w q hq
    unfold fs_create_directories
    dsimp only
    split
    · rfl
    · rfl
    · split
      · rfl
      · exact fsSet_of_ne _ _ hq
  · intro w
    unfold fs_create_directories
    dsimp only
    split
    · rfl
    · rfl
    · split <;> rfl

theorem within_GetFileAttributesA (env : Env) (p : String) (T : String → Prop)
    (K : Event → Prop) (hK : K (.GetFileAttributesA p)) :
    (GetFileAttributesA env p).Within T K := by
  apply within_of_call (.GetFileAttributesA p) hK
  all_goals
    intro w
    unfold GetFileAttributesA
    dsimp only
    split
    · rfl
    · split <;> rfl

theorem within_SetFileAttributesA (env : Env) (p : String) (a : Nat) (T : String → Prop)
    (K : Event → Prop) (hT : T p) (hK : K (.SetFileAttributesA p a)) :
    (SetFileAttributesA env p a).Within T K := by
  apply within_of_event p (.SetFileAttributesA p a) hT hK
  · intro w q hq
    unfold SetFileAttributesA
    dsimp only
    split
    · rfl
    · split
      · rfl
      · exact fsSet_of_ne _ _ hq
  · intro w
    unfold SetFileAttributesA
    dsimp only
    split
    · rfl
    · split <;> rfl

theorem within_fopen_wb (env : Env) (p : String) (T : String → Prop) (K : Event → Prop)
    (hT : T p) (hK : K (.fopen_wb p)) : (fopen_wb env p).Within T K := by
  apply within_of_event p (.fopen_wb p) hT hK
  · intro w q hq
    unfold fopen_wb
    dsimp only
    split
    · rfl
    · exact fsSet_of_ne _ _ hq
  · intro w
    unfold fopen_wb
    dsimp only
    split <;> rfl

theorem within_ofstream_open (env : Env) (p : String) (T : String → Prop) (K : Event → Prop)
    (hT : T p) (hK : K (.ofstream_open p)) : (ofstream_open env p).Within T K := by
  apply within_of_event p (.ofstream_open p) hT hK
  · intro w q hq
    unfold ofstream_open
    dsimp only
    split
    · rfl
    · exact fsSet_of_ne _ _ hq
  · intro w
    unfold ofstream_open
    dsimp only
    split <;> rfl

theorem within_ofstream_write (p text : String) (T : String → Prop) (K : Event → Prop)
    (hT : T p) : (ofstream_write p text).Within T K :=
  within_of fun w =>
    ⟨fun q hq => fsAppend_of_ne _ _ (fun h => hq (h ▸ hT)), [], by simp [ofstream_write, Res.world],
      by simp⟩

theorem within_ifstream_open (env : Env) (p : String) (T : String → Prop) (K : Event → Prop)
    (hK : K (.ifstream_open p)) : (ifstream_open env p).Within T K := by
  apply within_of_call (.ifstream_open p) hK
  all_goals
    intro w
    unfold ifstream_open
    dsimp only
    split <;> rfl

theorem within_curl_easy_init (env : Env) (T : String → Prop) (K : Event → Prop)
    (hK : K .curl_easy_init) : (curl_easy_init env).Within T K :=
  within_of_call .curl_easy_init hK (fun _ => rfl) (fun _ => rfl)

theorem within_curl_easy_perform_to_file (env : Env) (url fp : String) (T : String → Prop)
    (K : Event → Prop) (hT : T fp) (hK : ∀ tr, K (.curl_easy_perform url tr)) :
    (curl_easy_perform_to_file env url fp).Within T K :=
  within_of fun w =>
    ⟨fun q hq => fsAppend_of_ne _ _ (fun h => hq (h ▸ hT)), [_], rfl, by simpa using hK _⟩

theorem within_curl_easy_perform_to_string (env : Env) (url : String) (T : String → Prop)
    (K : Event → Prop) (hK : ∀ tr, K (.curl_easy_perform url tr)) :
    (curl_easy_perform_to_string env url).Within T K :=
  within_of fun w => ⟨fun q hq => rfl, [_], rfl, by simpa using hK _⟩

theorem within_system_icacls (env : Env) (cmd p : String) (T : String → Prop)
    (K : Event → Prop) (hT : T p) (hK : K (.system cmd)) :
    (system_icacls_setintegritylevel_medium env cmd p).Within T K := by
  apply within_of_event p (.system cmd) hT hK
  · intro w q hq
    unfold system_icacls_setintegritylevel_medium
    dsimp only
    split
    · exact fsSetIntegrity_of_ne _ _ hq
    · rfl
  · intro w
    unfold system_icacls_setintegritylevel_medium
    dsimp only
    split <;> rfl

theorem within_SHGetKnownFolderPath (env : Env) (T : String → Prop) (K : Event → Prop)
    (hK : K .SHGetKnownFolderPath) : (SHGetKnownFolderPath env).Within T K :=
  within_of_call .SHGetKnownFolderPath hK (fun _ => rfl) (fun _ => rfl)

theorem within_cin_int (T : String → Prop) (K : Event → Prop) (hK : K .cin_int) :
    cin_int.Within T K := by
  apply within_of_call .cin_int hK
  all_goals
    intro w
    unfold cin_int
    split <;> rfl

/-! ## The functions of the program stay within their paths -/

theorem within_CheckAttributes (env : Env) (p l : String) (T : String → Prop)
    (K : Event → Prop) (hK : ∀ e : Event, e.isTransfer = false → e.isSystem = false → K e) :
    (CheckAttributes env p l).Within T K := by
  unfold CheckAttributes
  apply within_bind (within_GetFileAttributesA env p T K (hK _ rfl rfl))
  intro a
  cases a with
  | none => exact within_cerr _ _ _ (hK _ rfl rfl)
  | some a => exact within_cout _ _ _ (hK _ rfl rfl)

theorem within_ReadVersionFile (env : Env) (p : String) (T : String → Prop)
    (K : Event → Prop) (hK : ∀ e : Event, e.isTransfer = false → e.isSystem = false → K e) :
    (ReadVersionFile env p).Within T K := by
  unfold ReadVersionFile
  repeat' first
    | apply within_pure
    | apply within_cerr
    | apply within_fs_exists
    | apply within_ifstream_open
    | apply within_getline
    | apply within_ite
    | apply within_bind
    | exact hK
    | intro _
    | exact hK _ rfl rfl

theorem within_WriteVersionFile (env : Env) (p v : String) (T : String → Prop)
    (K : Event → Prop) (hT : T p)
    (hK : ∀ e : Event, e.isTransfer = false → e.isSystem = false → K e) :
    (WriteVersionFile env p v).Within T K := by
  unfold WriteVersionFile
  repeat' first
    | apply within_pure
    | apply within_cerr
    | apply within_ofstream_open
    | apply within_ofstream_write
    | apply within_ite
    | apply within_bind
    | exact hK
    | intro _
    | exact hT
    | exact hK _ rfl rfl

theorem within_DownloadFile (env : Env) (url out : String) (T : String → Prop)
    (K : Event → Prop) (hT1 : T out) (hT2 : T (out ++ ".tmp"))
    (hK : ∀ e : Event, e.isSystem = false → K e) :
    (DownloadFile env url out).Within T K := by
  unfold DownloadFile
  repeat' first
    | apply within_pure
    | apply within_cerr
    | apply within_cout
    | apply within_curl_easy_init
    | apply within_fopen_wb
    | apply within_curl_easy_perform_to_file
    | apply within_fs_remove
    | apply within_fs_rename
    | apply within_fs_exists
    | apply within_fs_file_size
    | apply within_tryCatch
    | apply within_ite
    | apply within_bind
    | exact hK
    | intro _
    | exact hT1
    | exact hT2
    | exact hK _ rfl

theorem within_RemoveReadOnlyAttribute (env : Env) (p : String) (T : String → Prop)
    (K : Event → Prop) (hT : T p)
    (hK : ∀ e : Event, e.isTransfer = false → e.isSystem = false → K e) :
    (RemoveReadOnlyAttribute env p).Within T K := by
  unfold RemoveReadOnlyAttribute
  repeat' first
    | apply within_pure
    | apply within_cerr
    | apply within_cout
    | apply within_fs_is_regular_file
    | apply within_GetFileAttributesA
    | apply within_SetFileAttributesA
    | apply within_GetLastError
    | apply within_ite
    | apply within_bind
    | exact hK
    | intro _
    | exact hT
    | exact hK _ rfl rfl
    | split

theorem within_SetReadOnlyAttribute (env : Env) (p : String) (T : String → Prop)
    (K : Event → Prop) (hT : T p)
    (hK : ∀ e : Event, e.isTransfer = false → e.isSystem = false → K e) :
    (SetReadOnlyAttribute env p).Within T K := by
  unfold SetReadOnlyAttribute
  repeat' first
    | apply within_pure
    | apply within_cerr
    | apply within_cout
    | apply within_fs_is_regular_file
    | apply within_GetFileAttributesA
    | apply within_SetFileAttributesA
    | apply within_GetLastError
    | apply within_ite
    | apply within_bind
    | exact hK
    | intro _
    | exact hT
    | exact hK _ rfl rfl
    | split

theorem within_GetVRChatToolsPath (env : Env) (T : String → Prop) (K : Event → Prop)
    (hK : ∀ e : Event, e.isTransfer = false → e.isSystem = false → K e) :
    (GetVRChatToolsPath env).Within T K := by
  unfold GetVRChatToolsPath
  repeat' first
    | apply within_pure
    | apply within_cerr
    | apply within_SHGetKnownFolderPath
    | apply within_bind
    | exact hK
    | intro _
    | exact hK _ rfl rfl
    | split

theorem within_findYtDlpAsset (data : Json) (assets : List Json) (T : String → Prop)
    (K : Event → Prop) (hK : ∀ e : Event, e.isSystem = false → K e) :
    (findYtDlpAsset data assets).Within T K := by
  induction assets with
  | nil => exact within_pure _ _ _
  | cons asset rest ih =>
    unfold findYtDlpAsset
    repeat' first
      | exact ih
      | apply within_pure
      | apply within_cout
      | apply within_get_string
      | apply within_const_subscript
      | apply within_subscript
      | apply within_ite
      | apply within_bind
      | exact hK
      | intro _
      | exact hK _ rfl

theorem within_FetchLatestReleaseInfo (env : Env) (u v : String) (T : String → Prop)
    (K : Event → Prop) (hK : ∀ e : Event, e.isSystem = false → K e) :
    (FetchLatestReleaseInfo env u v).Within T K := by
  unfold FetchLatestReleaseInfo
  repeat' first
    | apply within_findYtDlpAsset
    | apply within_pure
    | apply within_cerr
    | apply within_curl_easy_init
    | apply within_curl_easy_perform_to_string
    | apply within_json_parse
    | apply within_subscript
    | apply within_tryCatch
    | apply within_ite
    | apply within_bind
    | exact hK
    | intro _
    | exact hK _ rfl
    | split

theorem within_selectBrowser (pending : Nat) (T : String → Prop) (K : Event → Prop)
    (hK : ∀ e : Event, e.isTransfer = false → e.isSystem = false → K e) :
    (selectBrowser pending).Within T K := by
  induction pending with
  | zero =>
    unfold selectBrowser
    repeat' first
      | apply within_throwExn
      | apply within_cout
      | apply within_cin_int
      | apply within_bind
      | exact hK
      | intro _
      | exact hK _ rfl rfl
  | succ n ih =>
    unfold selectBrowser
    repeat' first
      | exact ih
      | apply within_pure
      | apply within_cout
      | apply within_cin_int
      | apply within_ite
      | apply within_bind
      | exact hK
      | intro _
      | exact hK _ rfl rfl
      | split

theorem within_ConfigureYtDlp (env : Env) (d : String) (T : String → Prop)
    (K : Event → Prop) (hT : T (d ++ "\\yt-dlp.conf"))
    (hK : ∀ e : Event, e.isTransfer = false → e.isSystem = false → K e) :
    (ConfigureYtDlp env d).Within T K := by
  unfold ConfigureYtDlp
  repeat' first
    | apply within_selectBrowser
    | apply within_pendingInput
    | apply within_pure
    | apply within_cout
    | apply within_cerr
    | apply within_fs_exists
    | apply within_ofstream_open
    | apply within_ofstream_write
    | apply within_ite
    | apply within_bind
    | exact hK
    | intro _
    | exact hT
    | exact hK _ rfl rfl

theorem within_prepare (env : Env) (d : String) (T : String → Prop) (K : Event → Prop)
    (hT : T d) (hK : ∀ e : Event, e.isTransfer = false → e.isSystem = false → K e) :
    (UpdateYtDlp_prepare env d).Within T K := by
  unfold UpdateYtDlp_prepare
  repeat' first
    | apply within_CheckAttributes
    | apply within_fs_create_directories
    | apply within_pure
    | apply within_cout
    | apply within_fs_exists
    | apply within_ite
    | apply within_bind
    | exact hK
    | intro _
    | exact hT
    | exact hK _ rfl rfl

theorem within_unlock (env : Env) (p : String) (T : String → Prop) (K : Event → Prop)
    (hT : T p) (hK : ∀ e : Event, e.isTransfer = false → e.isSystem = false → K e) :
    (UpdateYtDlp_unlock env p).Within T K := by
  unfold UpdateYtDlp_unlock
  repeat' first
    | apply within_CheckAttributes
    | apply within_RemoveReadOnlyAttribute
    | apply within_fs_remove
    | apply within_pure
    | apply within_cout
    | apply within_cerr
    | apply within_fs_exists
    | apply within_ite
    | apply within_bind
    | exact hK
    | intro _
    | exact hT
    | exact hK _ rfl rfl

theorem within_download (env : Env) (u p : String) (T : String → Prop) (K : Event → Prop)
    (hT1 : T p) (hT2 : T (p ++ ".tmp")) (hK : ∀ e : Event, e.isSystem = false → K e) :
    (UpdateYtDlp_download env u p).Within T K := by
  unfold UpdateYtDlp_download
  repeat' first
    | apply within_DownloadFile
    | apply within_pure
    | apply within_cout
    | apply within_cerr
    | apply within_ite
    | apply within_bind
    | exact hK
    | intro _
    | exact hT1
    | exact hT2
    | exact hK _ rfl

theorem within_integrity (env : Env) (d p : String) (T : String → Prop) (K : Event → Prop)
    (hT : T p) (hK : ∀ e : Event, e.isTransfer = false → K e) :
    (UpdateYtDlp_integrity env d p).Within T K := by
  unfold UpdateYtDlp_integrity
  repeat' first
    | apply within_system_icacls
    | apply within_fs_exists
    | apply within_fs_is_regular_file
    | apply within_pure
    | apply within_cout
    | apply within_cerr
    | apply within_ite
    | apply within_bind
    | exact hK
    | intro _
    | exact hT
    | exact hK _ rfl

theorem within_readonly (env : Env) (p : String) (T : String → Prop) (K : Event → Prop)
    (hT : T p) (hK : ∀ e : Event, e.isTransfer = false → e.isSystem = false → K e) :
    (UpdateYtDlp_readonly env p).Within T K := by
  unfold UpdateYtDlp_readonly
  repeat' first
    | apply within_CheckAttributes
    | apply within_SetReadOnlyAttribute
    | apply within_pure
    | apply within_cout
    | apply within_cerr
    | apply within_ite
    | apply within_bind
    | exact hK
    | intro _
    | exact hT
    | exact hK _ rfl rfl

theorem within_version (env : Env) (d p v : String) (T : String → Prop) (K : Event → Prop)
    (hT : T p) (hK : ∀ e : Event, e.isTransfer = false → e.isSystem = false → K e) :
    (UpdateYtDlp_version env d p v).Within T K := by
  unfold UpdateYtDlp_version
  repeat' first
    | apply within_CheckAttributes
    | apply within_WriteVersionFile
    | apply within_pure
    | apply within_cout
    | apply within_cerr
    | apply within_ite
    | apply within_bind
    | exact hK
    | intro _
    | exact hT
    | exact hK _ rfl rfl

theorem within_runSteps (steps : List (Prog Bool)) (T : String → Prop) (K : Event → Prop)
    (h : ∀ s ∈ steps, s.Within T K) : (runSteps steps).Within T K := by
  induction steps with
  | nil => exact within_pure _ _ _
  | cons s rest ih =>
    unfold runSteps
    apply within_bind (h s (List.mem_cons_self _ _))
    intro b
    apply within_ite
    · exact within_pure _ _ _
    · apply within_bind (within_pure _ _ _)
      intro _
      exact ih fun s2 hs2 => h s2 (List.mem_cons_of_mem _ hs2)

/-! ## What `DownloadFile` does -/

@[simp] theorem Prog.ite_apply {α : Type} (c : Prop) [Decidable c] (t e : Prog α) (w : World) :
    (if c then t else e) w = if c then t w else e w := by
  split <;> rfl

/-- `DownloadFile` is the staging of the transfer followed by the
validation and installation of the staged file. -/
theorem DownloadFile_eq (env : Env) (url out : String) :
    DownloadFile env url out = (do
      if !(← curl_easy_init env) then
        cerr "Failed to initialize CURL"
        return false
      else
        if !(← fopen_wb env (out ++ ".tmp")) then
          cerr ("Failed to open file for writing: " ++ (out ++ ".tmp"))
          return false
        else
          let tr ← curl_easy_perform_to_file env url (out ++ ".tmp")
          DownloadFile_validate env (out ++ ".tmp") out tr) := by
  simp only [DownloadFile, DownloadFile_validate, DownloadFile_install, Prog.bind_bind,
    Prog.pure_then, Prog.ite_then]

theorem within_install (env : Env) (tmp out : String) (T : String → Prop) (K : Event → Prop)
    (hT1 : T out) (hT2 : T tmp)
    (hK : ∀ e : Event, e.isTransfer = false → e.isSystem = false → K e) :
    (DownloadFile_install env tmp out).Within T K := by
  unfold DownloadFile_install
  repeat' first
    | apply within_pure
    | apply within_cerr
    | apply within_fs_remove
    | apply within_fs_rename
    | apply within_fs_exists
    | apply within_tryCatch
    | apply within_ite
    | apply within_bind
    | intro _
    | exact hT1
    | exact hT2
    | exact hK _ rfl rfl

theorem within_validate (env : Env) (tmp out : String) (tr : Transfer) (T : String → Prop)
    (K : Event → Prop) (hT1 : T out) (hT2 : T tmp)
    (hK : ∀ e : Event, e.isTransfer = false → e.isSystem = false → K e) :
    (DownloadFile_validate env tmp out tr).Within T K := by
  unfold DownloadFile_validate
  repeat' first
    | apply within_install
    | apply within_pure
    | apply within_cerr
    | apply within_cout
    | apply within_fs_remove
    | apply within_fs_exists
    | apply within_fs_file_size
    | apply within_ite
    | apply within_bind
    | exact hK
    | intro _
    | exact hT1
    | exact hT2
    | exact hK _ rfl rfl

/-- The installation of a staged file `n`. -/
theorem DownloadFile_install_spec (env : Env) (tmp out : String) (w : World) (n : Node)
    (hne : out ≠ tmp) (hn : w.fs tmp = some n) (r : Res Bool)
    (hr : DownloadFile_install env tmp out w = r) :
    ∃ t, r.world.trace = w.trace ++ t ∧
      (Event.fs_remove out ∈ t ∨ Event.fs_rename tmp out ∈ t) ∧
      (r.value? = some true → r.world.fs out = some n ∧ r.world.fs tmp = none) ∧
      (r.value? = some false → r.world.fs tmp = none ∧
        (r.world.fs out = w.fs out ∨ (r.world.fs out = none ∧ Event.fs_rename tmp out ∈ t))) ∧
      (w.fs out = none → r.value? ≠ some true → r.world.fs out = none) := by
  have hne2 : tmp ≠ out := hne.symm
  cases hout : w.fs out with
  | none =>
    simp only [DownloadFile_install, tryCatch, fs_exists, fs_remove, fs_rename, cerr, World.log,
      hout, hn, isStdException, Prog.bind_apply, Prog.pure_apply, Prog.ite_apply,
      Option.isSome_none, Bool.false_eq_true, if_false] at hr
    repeat' (split_ifs at hr <;> simp only [hn, if_true] at hr)
    all_goals
      subst hr
      simp only [Res.world, Res.value?, List.append_assoc, List.singleton_append]
      refine ⟨_, rfl, ?_⟩
      simp [fsSet, hne, hne2, hout, hn]
  | some old =>
    simp only [DownloadFile_install, tryCatch, fs_exists, fs_remove, fs_rename, cerr, World.log,
      hout, hn, isStdException, Prog.bind_apply, Prog.pure_apply, Prog.ite_apply,
      Option.isSome_some, if_true] at hr
    repeat' (split_ifs at hr <;>
      simp only [hn, if_true, fsSet_same, fsSet_of_ne _ _ hne2, fsSet_of_ne _ _ hne] at hr)
    all_goals
      subst hr
      simp only [Res.world, Res.value?, List.append_assoc, List.singleton_append]
      refine ⟨_, rfl, ?_⟩
      simp [fsSet, hne, hne2, hout, hn]

/-- The validation of a staged file of content `c` after the transfer `tr`:
a refused transfer is cleaned up and nothing is installed, an accepted one
goes on to the installation. -/
theorem DownloadFile_validate_spec (env : Env) (tmp out : String) (tr : Transfer) (w : World)
    (c : String) (a : Nat) (l : Option IntegrityLevel)
    (hne : out ≠ tmp) (hn : w.fs tmp = some (.file c a l)) (r : Res Bool)
    (hr : DownloadFile_validate env tmp out tr w = r) :
    ((tr.res ≠ 0 ∨ tr.responseCode ≠ 200 ∨ c.length = 0 ∨
        (0 < tr.contentLength ∧ tr.contentLength.toNat ≠ c.length)) →
      r.value? ≠ some true ∧ r.world.fs out = w.fs out ∧
      (r.value? = some false → r.world.fs tmp = none) ∧
      (r.value? = some false ∨ r.exn? = some .filesystem_error) ∧
      ∃ t, r.world.trace = w.trace ++ t ∧ Event.fs_remove out ∉ t ∧
        Event.fs_rename tmp out ∉ t) ∧
    (¬ (tr.res ≠ 0 ∨ tr.responseCode ≠ 200 ∨ c.length = 0 ∨
        (0 < tr.contentLength ∧ tr.contentLength.toNat ≠ c.length)) →
      r = DownloadFile_install env tmp out
        (w.log (.cout ("Downloaded file size: " ++ toString c.length ++ " bytes")))) := by
  have hne2 : tmp ≠ out := hne.symm
  simp only [DownloadFile_validate, fs_exists, fs_remove, fs_file_size, cerr, cout, World.log,
    hn, Prog.bind_apply, Prog.pure_apply, Prog.ite_apply, Option.isSome_some, Bool.not_true,
    Bool.false_eq_true, if_false] at hr
  repeat' (split_ifs at hr <;> try simp only [hn, if_true] at hr)
  all_goals
    subst hr
    simp only [Res.world, Res.value?, Res.exn?, List.append_assoc, List.singleton_append]
    simp_all [fsSet, hne, hne2, World.log]


/-- The validation and installation of a staged transfer `tr`, seen from
the world `w` in which `DownloadFile` was called. -/
theorem DownloadFile_staged_spec (env : Env) (url out : String) (w w2 : World) (tr : Transfer)
    (a : Nat) (l : Option IntegrityLevel) (r : Res Bool)
    (hfs2 : w2.fs = fsSet w.fs (out ++ ".tmp") (some (Node.file tr.body a l)))
    (htr2 : w2.trace = w.trace ++ [Event.curl_easy_init, Event.fopen_wb (out ++ ".tmp"),
      Event.curl_easy_perform url tr])
    (hr : DownloadFile_validate env (out ++ ".tmp") out tr w2 = r) :
    ∃ t,
      r.world.trace = w.trace ++
        [.curl_easy_init, .fopen_wb (out ++ ".tmp"), .curl_easy_perform url tr] ++ t ∧
      (∀ e ∈ t, e.isTransfer = false) ∧
      ((tr.res ≠ 0 ∨ tr.responseCode ≠ 200 ∨ tr.rejected) →
        r.value? ≠ some true ∧ r.world.fs out = w.fs out ∧
        (r.value? = some false → r.world.fs (out ++ ".tmp") = none) ∧
        (r.value? = some false ∨ r.exn? = some .filesystem_error) ∧
        Event.fs_remove out ∉ t ∧ Event.fs_rename (out ++ ".tmp") out ∉ t) ∧
      (¬ (tr.res ≠ 0 ∨ tr.responseCode ≠ 200 ∨ tr.rejected) →
        (Event.fs_remove out ∈ t ∨ Event.fs_rename (out ++ ".tmp") out ∈ t) ∧
        (r.value? = some true →
          r.world.fs out = some (.file tr.body a l) ∧ r.world.fs (out ++ ".tmp") = none) ∧
        (r.value? = some false → r.world.fs (out ++ ".tmp") = none ∧
          (r.world.fs out = w.fs out ∨
            (r.world.fs out = none ∧ Event.fs_rename (out ++ ".tmp") out ∈ t))) ∧
        (w.fs out = none → r.value? ≠ some true → r.world.fs out = none)) := by
  have hne : out ≠ out ++ ".tmp" := (tmp_ne_self out).symm
  have hn2 : w2.fs (out ++ ".tmp") = some (.file tr.body a l) := by
    rw [hfs2, fsSet_same]
  have hout2 : w2.fs out = w.fs out := by
    rw [hfs2, fsSet_of_ne _ _ hne]
  obtain ⟨hbad, hgood⟩ := DownloadFile_validate_spec env (out ++ ".tmp") out tr w2 tr.body a l
    hne hn2 r hr
  obtain ⟨t, ht, hk⟩ := (within_validate env (out ++ ".tmp") out tr (fun _ => True)
    (fun e => e.isTransfer = false) trivial trivial (fun e h _ => h)).trace w2
  rw [hr, htr2] at ht
  refine ⟨t, ht, hk, ?_, ?_⟩
  · intro hb
    obtain ⟨h1, h2, h3, h4, t2, ht2, h5, h6⟩ := hbad hb
    have : t2 = t := by
      rw [htr2, ht] at ht2
      exact (List.append_cancel_left ht2).symm
    subst this
    exact ⟨h1, h2.trans hout2, h3, h4, h5, h6⟩
  · intro hg
    have hri := hgood hg
    obtain ⟨t3, ht3, h1, h2, h3, h4⟩ := DownloadFile_install_spec env (out ++ ".tmp") out
      (w2.log (.cout ("Downloaded file size: " ++ toString tr.body.length ++ " bytes")))
      (.file tr.body a l) hne hn2 r hri.symm
    have ht' : t = Event.cout ("Downloaded file size: " ++ toString tr.body.length ++ " bytes")
        :: t3 := by
      simp only [World.log, htr2, List.append_assoc, List.singleton_append] at ht3
      rw [ht] at ht3
      simp only [List.append_assoc] at ht3
      exact List.append_cancel_left (List.append_cancel_left ht3)
    have hmem : ∀ e, e ∈ t3 → e ∈ t := fun e he => by
      rw [ht']
      exact List.mem_cons_of_mem _ he
    refine ⟨?_, h2, ?_, ?_⟩
    · rcases h1 with h | h
      · exact Or.inl (hmem _ h)
      · exact Or.inr (hmem _ h)
    · intro hf
      obtain ⟨h5, h6⟩ := h3 hf
      refine ⟨h5, ?_⟩
      rcases h6 with h | ⟨h, h7⟩
      · exact Or.inl (h.trans hout2)
      · exact Or.inr ⟨h, hmem _ h7⟩
    · intro habs
      exact h4 (hout2.trans habs)

/-- The behaviour of `DownloadFile`: either it fails before anything is
staged and leaves the file system as it is, or a transfer `tr` is staged,
and then a refused transfer is cleaned up without touching `out`, while an
accepted one is installed unless the removal of the old file or the rename
raises. -/
theorem DownloadFile_spec (env : Env) (url out : String) (w : World) (r : Res Bool)
    (hr : DownloadFile env url out w = r) :
    (r.value? = some false ∧ r.world.fs = w.fs ∧
      ∃ t, r.world.trace = w.trace ++ t ∧
        ∀ e ∈ t, e.isTransfer = false ∧ e ≠ .fs_remove out ∧ e ≠ .fs_rename (out ++ ".tmp") out) ∨
    ∃ tr a l t,
      r.world.trace = w.trace ++
        [.curl_easy_init, .fopen_wb (out ++ ".tmp"), .curl_easy_perform url tr] ++ t ∧
      (∀ e ∈ t, e.isTransfer = false) ∧
      ((tr.res ≠ 0 ∨ tr.responseCode ≠ 200 ∨ tr.rejected) →
        r.value? ≠ some true ∧ r.world.fs out = w.fs out ∧
        (r.value? = some false → r.world.fs (out ++ ".tmp") = none) ∧
        (r.value? = some false ∨ r.exn? = some .filesystem_error) ∧
        Event.fs_remove out ∉ t ∧ Event.fs_rename (out ++ ".tmp") out ∉ t) ∧
      (¬ (tr.res ≠ 0 ∨ tr.responseCode ≠ 200 ∨ tr.rejected) →
        (Event.fs_remove out ∈ t ∨ Event.fs_rename (out ++ ".tmp") out ∈ t) ∧
        (r.value? = some true →
          r.world.fs out = some (.file tr.body a l) ∧ r.world.fs (out ++ ".tmp") = none) ∧
        (r.value? = some false → r.world.fs (out ++ ".tmp") = none ∧
          (r.world.fs out = w.fs out ∨
            (r.world.fs out = none ∧ Event.fs_rename (out ++ ".tmp") out ∈ t))) ∧
        (w.fs out = none → r.value? ≠ some true → r.world.fs out = none)) := by
  rw [DownloadFile_eq] at hr
  simp only [curl_easy_init, fopen_wb, curl_easy_perform_to_file, cerr, World.log, truncated,
    Prog.bind_apply, Prog.pure_apply, Prog.ite_apply] at hr
  split_ifs at hr with h1 h2
  · subst hr
    left
    simp [Res.value?, Res.world, Event.isTransfer]
  · simp only [Bool.not_true, Bool.false_eq_true, if_false, if_true] at hr
    subst hr
    left
    refine ⟨rfl, rfl, ?_⟩
    simp only [Res.world, List.append_assoc]
    exact ⟨_, rfl, by simp [Event.isTransfer]⟩
  · simp only [Bool.not_true, Bool.false_eq_true, if_false, Bool.not_false, if_true,
      fsAppend_fsSet_file, String.empty_append] at hr
    right
    exact ⟨_, _, _, DownloadFile_staged_spec env url out w _ _ _ _ r rfl
      (by simp [List.append_assoc]) hr⟩
/-! ## `DownloadFile` when the platform refuses nothing -/

@[simp] theorem World.log_fs (w : World) (e : Event) : (w.log e).fs = w.fs := rfl

@[simp] theorem World.log_trace (w : World) (e : Event) : (w.log e).trace = w.trace ++ [e] := rfl

@[simp] theorem World.log_stdin (w : World) (e : Event) : (w.log e).stdin = w.stdin := rfl

theorem World.log2_trace (w : World) (a b : Event) :
    ((w.log a).log b).trace = w.trace ++ [a, b] := by
  simp

theorem World.log3_trace (w : World) (a b c : Event) :
    (((w.log a).log b).log c).trace = w.trace ++ [a, b, c] := by
  simp

theorem runSteps_cons (s : Prog Bool) (rest : List (Prog Bool)) (w : World) :
    runSteps (s :: rest) w = match s w with
      | .ok true w1 => runSteps rest w1
      | .ok false w1 => .ok false w1
      | .stop e w1 => .stop e w1 := by
  simp only [runSteps, Prog.bind_apply]
  cases s w with
  | stop e w1 => rfl
  | ok b w1 => cases b <;> rfl

/-- `CheckAttributes` returns, having added one query and one console line. -/
theorem CheckAttributes_eq (env : Env) (p l : String) (w : World) :
    ∃ line : Event, line.isConsole = true ∧
      CheckAttributes env p l w = .ok () ((w.log (.GetFileAttributesA p)).log line) := by
  simp only [CheckAttributes, GetFileAttributesA, Prog.bind_apply]
  cases w.fs p with
  | none => exact ⟨.cerr _, rfl, rfl⟩
  | some n =>
    dsimp only
    split_ifs
    · exact ⟨.cerr _, rfl, rfl⟩
    · exact ⟨.cout _, rfl, rfl⟩

theorem fs_remove_true (env : Env) (p : String) (w w1 : World)
    (h : fs_remove env p w = .ok true w1) : w1.fs p = none := by
  simp only [fs_remove] at h
  split at h
  · simp at h
  · split_ifs at h
    simp only [Res.ok.injEq, true_and] at h
    subst h
    exact fsSet_same _ _ _

/-- Once the unlock step has returned `true`, nothing is at the path. -/
theorem UpdateYtDlp_unlock_true (env : Env) (p : String) (w : World) (r : Res Bool)
    (hr : UpdateYtDlp_unlock env p w = r) (h : r.value? = some true) :
    r.world.fs p = none := by
  simp only [UpdateYtDlp_unlock, fs_exists, cout, cerr, Prog.bind_apply, Prog.pure_apply,
    Prog.ite_apply] at hr
  cases hp : w.fs p with
  | none =>
    simp only [hp, Option.isSome_none, Bool.false_eq_true, if_false] at hr
    subst hr
    exact hp
  | some n =>
    simp only [hp, Option.isSome_some, if_true] at hr
    obtain ⟨l1, -, h1⟩ := CheckAttributes_eq env p "yt-dlp.exe (before)"
      (w.log (.cout ("Existing yt-dlp.exe found at: " ++ p)))
    rw [h1] at hr
    dsimp only at hr
    generalize (((w.log (.cout ("Existing yt-dlp.exe found at: " ++ p))).log
      (.GetFileAttributesA p)).log l1) = w0 at hr
    cases h2 : RemoveReadOnlyAttribute env p w0 with
    | stop e w1 =>
      rw [h2] at hr
      subst hr
      simp [Res.value?] at h
    | ok b w1 =>
      rw [h2] at hr
      cases b with
      | false =>
        simp only [Bool.not_false, if_true] at hr
        subst hr
        simp [Res.value?] at h
      | true =>
        simp only [Bool.not_true, Bool.false_eq_true, if_false] at hr
        obtain ⟨l2, -, h3⟩ := CheckAttributes_eq env p "yt-dlp.exe (after removing read-only)" w1
        rw [h3] at hr
        dsimp only at hr
        cases h4 : fs_remove env p (((w1.log (.GetFileAttributesA p)).log l2).log
          (.cout "Deleting existing yt-dlp.exe...")) with
        | stop e w3 =>
          rw [h4] at hr
          subst hr
          simp [Res.value?] at h
        | ok b w3 =>
          rw [h4] at hr
          cases b with
          | false =>
            simp only [Bool.not_false, if_true] at hr
            subst hr
            simp [Res.value?] at h
          | true =>
            simp only [Bool.not_true, Bool.false_eq_true, if_false] at hr
            subst hr
            exact fs_remove_true env p _ _ h4

/-- The download step succeeds exactly through a successful `DownloadFile`. -/
theorem UpdateYtDlp_download_spec (env : Env) (u p : String) (w : World) (r : Res Bool)
    (hr : UpdateYtDlp_download env u p w = r) :
    (r.value? = some true → ∃ tr a l t, r.world.trace = w.trace ++ t ∧
      Event.curl_easy_perform u tr ∈ t ∧
      (∀ e ∈ t, e.isTransfer = true → e = Event.curl_easy_perform u tr) ∧
      tr.res = 0 ∧ tr.responseCode = 200 ∧ ¬ tr.rejected ∧
      r.world.fs p = some (.file tr.body a l)) ∧
    (w.fs p = none → r.value? ≠ some true → r.world.fs p = none) := by
  simp only [UpdateYtDlp_download, cout, cerr, Prog.bind_apply, Prog.pure_apply,
    Prog.ite_apply] at hr
  generalize hw1 : w.log (.cout ("Downloading latest yt-dlp.exe to: " ++ p)) = w1 at hr
  have hfs1 : w1.fs = w.fs := by rw [← hw1]; rfl
  have htr1 : w1.trace = w.trace ++ [Event.cout ("Downloading latest yt-dlp.exe to: " ++ p)] := by
    rw [← hw1]; rfl
  have hd := DownloadFile_spec env u p w1 _ rfl
  cases h2 : DownloadFile env u p w1 with
  | stop e w2 =>
    rw [h2] at hr hd
    subst hr
    refine ⟨fun h => by simp [Res.value?] at h, fun habs _ => ?_⟩
    rcases hd with ⟨h, -⟩ | ⟨tr, a, l, t, -, -, hbad, hgood⟩
    · simp [Res.value?] at h
    · by_cases hb : tr.res ≠ 0 ∨ tr.responseCode ≠ 200 ∨ tr.rejected
      · rw [(hbad hb).2.1, hfs1]
        exact habs
      · exact (hgood hb).2.2.2 (by rw [hfs1]; exact habs) (by simp [Res.value?])
  | ok b w2 =>
    rw [h2] at hr hd
    cases b with
    | false =>
      simp only [Bool.not_false, if_true] at hr
      subst hr
      refine ⟨fun h => by simp [Res.value?] at h, fun habs _ => ?_⟩
      simp only [Res.world, World.log_fs]
      rcases hd with ⟨-, h, -⟩ | ⟨tr, a, l, t, -, -, hbad, hgood⟩
      · simp only [Res.world] at h
        rw [h, hfs1]
        exact habs
      · by_cases hb : tr.res ≠ 0 ∨ tr.responseCode ≠ 200 ∨ tr.rejected
        · have := (hbad hb).2.1
          simp only [Res.world] at this
          rw [this, hfs1]
          exact habs
        · exact (hgood hb).2.2.2 (by rw [hfs1]; exact habs) (by simp [Res.value?])
    | true =>
      simp only [Bool.not_true, Bool.false_eq_true, if_false] at hr
      subst hr
      refine ⟨fun _ => ?_, fun _ h => absurd rfl h⟩
      rcases hd with ⟨h, -⟩ | ⟨tr, a, l, t, ht, hk, hbad, hgood⟩
      · simp [Res.value?] at h
      · by_cases hb : tr.res ≠ 0 ∨ tr.responseCode ≠ 200 ∨ tr.rejected
        · exact absurd rfl (hbad hb).1
        · obtain ⟨-, h3, -, -⟩ := hgood hb
          simp only [not_or, not_not] at hb
          simp only [Res.world, World.log_fs, World.log_trace] at ht h3 ⊢
          refine ⟨tr, a, l, [Event.cout ("Downloading latest yt-dlp.exe to: " ++ p)] ++
            [.curl_easy_init, .fopen_wb (p ++ ".tmp"), .curl_easy_perform u tr] ++ t ++
            [.cout "Successfully downloaded yt-dlp.exe!"], ?_, ?_, ?_,
            hb.1, hb.2.1, hb.2.2, (h3 rfl).1⟩
          · rw [ht, htr1]
            simp only [List.append_assoc]
          · simp
          · intro e he htrans
            simp only [List.mem_append, List.mem_cons, List.mem_singleton, List.not_mem_nil,
              or_false] at he
            rcases he with ((he | he | he | he) | he) | he
            · subst he; simp [Event.isTransfer] at htrans
            · subst he; simp [Event.isTransfer] at htrans
            · subst he; simp [Event.isTransfer] at htrans
            · exact he
            · rw [hk e he] at htrans; simp at htrans
            · subst he; simp [Event.isTransfer] at htrans

/-- The integrity step: it refuses a path outside the directory before any
command is started; it succeeds only on a regular file inside the directory,
which it labels through `icacls`. -/
theorem UpdateYtDlp_integrity_spec (env : Env) (d p : String) (w : World) (r : Res Bool)
    (hr : UpdateYtDlp_integrity env d p w = r) :
    (std_string_find p d ≠ some 0 →
      r.value? = some false ∧ r.world.fs = w.fs ∧
      ∃ t, r.world.trace = w.trace ++ t ∧ ∀ e ∈ t, e.isConsole = true) ∧
    (r.value? = some true →
      ∃ c a l, w.fs p = some (.file c a l) ∧ r.world.fs p = some (.file c a (some .medium))) ∧
    ∃ t, r.world.trace = w.trace ++ t ∧
      (r.value? = some true →
        Event.system ("icacls \"" ++ p ++ "\" /setintegritylevel medium") ∈ t) ∧
      (∀ e ∈ t, e.isSystem = true →
        e = Event.system ("icacls \"" ++ p ++ "\" /setintegritylevel medium") ∧
        std_string_find p d = some 0 ∧ ∃ c a l, w.fs p = some (.file c a l)) := by
  simp only [UpdateYtDlp_integrity, fs_exists, fs_is_regular_file, cout, cerr,
    system_icacls_setintegritylevel_medium, Prog.bind_apply, Prog.pure_apply,
    Prog.ite_apply, World.log_fs] at hr
  cases hp : w.fs p with
  | none =>
    simp only [hp, Option.isSome_none, Bool.not_false, Bool.or_self, if_true] at hr
    subst hr
    refine ⟨fun _ => ⟨rfl, rfl, _, World.log2_trace _ _ _, by simp [Event.isConsole]⟩,
      fun h => by simp [Res.value?] at h, _, World.log2_trace _ _ _,
      fun h => by simp [Res.value?] at h, by simp [Event.isSystem]⟩
  | some n =>
    cases n with
    | dir a =>
      simp only [hp, Option.isSome_some, Node.isFile, Bool.not_true, Bool.not_false,
        Bool.or_true, if_true] at hr
      subst hr
      refine ⟨fun _ => ⟨rfl, rfl, _, World.log2_trace _ _ _, by simp [Event.isConsole]⟩,
        fun h => by simp [Res.value?] at h, _, World.log2_trace _ _ _,
        fun h => by simp [Res.value?] at h, by simp [Event.isSystem]⟩
    | file c a l =>
      simp only [hp, Option.isSome_some, Node.isFile, Bool.not_true, Bool.or_self,
        Bool.false_eq_true, if_false] at hr
      by_cases hfind : std_string_find p d = some 0
      · simp only [hfind, bne_self_eq_false, Bool.false_eq_true, if_false] at hr
        split_ifs at hr with hcode
        · simp only [hcode, bne_self_eq_false, Bool.false_eq_true, if_false] at hr
          subst hr
          refine ⟨fun h => absurd hfind h,
            fun _ => ⟨c, a, l, rfl, fsSetIntegrity_file _ _ _ _ _ _ hp⟩, _,
            World.log3_trace _ _ _ _, fun _ => by simp, by simp [Event.isSystem, hfind]⟩
        · have hne : (env.exitCode ("icacls \"" ++ p ++ "\" /setintegritylevel medium")
              (w.log (Event.cout ("Setting integrity level to medium: " ++
                ("icacls \"" ++ p ++ "\" /setintegritylevel medium")))).trace != 0) = true := by
            simpa using hcode
          simp only [hne, if_true] at hr
          subst hr
          refine ⟨fun h => absurd hfind h, fun h => by simp [Res.value?] at h, _,
            World.log3_trace _ _ _ _, fun h => by simp [Res.value?] at h,
            by simp [Event.isSystem, hfind]⟩
      · have hne : (std_string_find p d != some 0) = true := by simpa using hfind
        simp only [hne, if_true] at hr
        subst hr
        refine ⟨fun _ => ⟨rfl, rfl, _, World.log2_trace _ _ _, by simp [Event.isConsole]⟩,
          fun h => by simp [Res.value?] at h, _, World.log2_trace _ _ _,
          fun h => by simp [Res.value?] at h, by simp [Event.isSystem]⟩

/-- `WriteVersionFile` either writes exactly the version, or changes nothing. -/
theorem WriteVersionFile_spec (env : Env) (p v : String) (w : World) (r : Res Bool)
    (hr : WriteVersionFile env p v w = r) :
    (r.value? = some true → ∃ a l, r.world.fs p = some (.file v a l)) ∧
    (r.value? ≠ some true → r.world.fs = w.fs) := by
  simp only [WriteVersionFile, ofstream_open, ofstream_write, cerr, truncated, Prog.bind_apply,
    Prog.pure_apply, Prog.ite_apply] at hr
  split_ifs at hr
  · simp only [Bool.not_false, if_true] at hr
    subst hr
    exact ⟨fun h => by simp [Res.value?] at h, fun _ => rfl⟩
  · simp only [Bool.not_true, Bool.false_eq_true, if_false, World.log_fs,
      fsAppend_fsSet_file, String.empty_append] at hr
    subst hr
    exact ⟨fun _ => ⟨_, _, fsSet_same _ _ _⟩, fun h => absurd rfl h⟩

/-- The version step either writes exactly the version, or changes nothing. -/
theorem UpdateYtDlp_version_spec (env : Env) (d p v : String) (w : World) (r : Res Bool)
    (hr : UpdateYtDlp_version env d p v w = r) :
    (r.value? = some true → ∃ a l, r.world.fs p = some (.file v a l)) ∧
    (r.value? ≠ some true → r.world.fs = w.fs) := by
  simp only [UpdateYtDlp_version, cout, cerr, Prog.bind_apply, Prog.pure_apply,
    Prog.ite_apply] at hr
  have hs := WriteVersionFile_spec env p v w _ rfl
  cases h2 : WriteVersionFile env p v w with
  | stop e w2 =>
    rw [h2] at hr hs
    subst hr
    exact ⟨fun h => by simp [Res.value?] at h, fun _ => hs.2 (by simp [Res.value?])⟩
  | ok b w2 =>
    rw [h2] at hr hs
    cases b with
    | false =>
      simp only [Bool.not_false, if_true] at hr
      subst hr
      exact ⟨fun h => by simp [Res.value?] at h, fun _ => hs.2 (by simp [Res.value?])⟩
    | true =>
      simp only [Bool.not_true, Bool.false_eq_true, if_false] at hr
      obtain ⟨l2, -, h3⟩ := CheckAttributes_eq env d "Tools directory (after all operations)"
        (w2.log (.cout ("Updated version file with version: " ++ v)))
      rw [h3] at hr
      subst hr
      exact ⟨fun _ => hs.1 rfl, fun h => absurd rfl h⟩

/-! ## The containment check -/

theorem findFrom_of_isPrefixOf (needle s : List Char) (h : needle.isPrefixOf s = true) :
    findFrom needle s 0 = some 0 := by
  cases s with
  | nil =>
    cases needle with
    | nil => rfl
    | cons c n => simp [List.isPrefixOf] at h
  | cons c s => simp [findFrom, h]

/-- The path `UpdateYtDlp` builds for the artifact starts with the directory. -/
theorem std_string_find_artifact (d : String) :
    std_string_find (d ++ "\\yt-dlp.exe") d = some 0 := by
  unfold std_string_find
  apply findFrom_of_isPrefixOf
  rw [String.data_append]
  simp

/-- The integrity step stays within its path and starts no other command
than `icacls` on that path, and this one only behind the containment check. -/
theorem within_integrity_guard (env : Env) (d p : String) (T : String → Prop) (hT : T p) :
    (UpdateYtDlp_integrity env d p).Within T (fun e => e.isSystem = true →
      e = Event.system ("icacls \"" ++ p ++ "\" /setintegritylevel medium") ∧
      std_string_find p d = some 0) :=
  within_of fun w =>
    ⟨(within_integrity env d p T (fun _ => True) hT (fun _ _ => trivial)).frame w, by
      obtain ⟨-, -, t, ht, -, h3⟩ := UpdateYtDlp_integrity_spec env d p w _ rfl
      exact ⟨t, ht, fun e he hs => ⟨(h3 e he hs).1, (h3 e he hs).2.1⟩⟩⟩

/-- Every command `UpdateYtDlp` starts is the `icacls` command of the
integrity step, behind its containment check. -/
theorem within_UpdateYtDlp_guard (env : Env) (d u v : String) :
    (UpdateYtDlp env d u v).Within (fun _ => True) (fun e => e.isSystem = true →
      e = Event.system ("icacls \"" ++ (d ++ "\\yt-dlp.exe") ++ "\" /setintegritylevel medium") ∧
      std_string_find (d ++ "\\yt-dlp.exe") d = some 0) := by
  rw [UpdateYtDlp_eq_runSteps]
  have hK : ∀ e : Event, e.isTransfer = false → e.isSystem = false → (e.isSystem = true →
      e = Event.system ("icacls \"" ++ (d ++ "\\yt-dlp.exe") ++ "\" /setintegritylevel medium") ∧
      std_string_find (d ++ "\\yt-dlp.exe") d = some 0) := by
    intro e _ h1 h2
    rw [h1] at h2
    exact absurd h2 (by decide)
  have hK2 : ∀ e : Event, e.isSystem = false → (e.isSystem = true →
      e = Event.system ("icacls \"" ++ (d ++ "\\yt-dlp.exe") ++ "\" /setintegritylevel medium") ∧
      std_string_find (d ++ "\\yt-dlp.exe") d = some 0) := by
    intro e h1 h2
    rw [h1] at h2
    exact absurd h2 (by decide)
  apply within_bind (within_prepare env d _ _ trivial hK)
  intro _
  apply within_runSteps
  intro s hs
  simp only [List.mem_cons, List.mem_singleton, List.not_mem_nil, or_false] at hs
  rcases hs with h | h | h | h | h
  · subst h; exact within_unlock env _ _ _ trivial hK
  · subst h; exact within_download env _ _ _ _ trivial trivial hK2
  · subst h; exact within_integrity_guard env d _ _ trivial
  · subst h; exact within_readonly env _ _ _ trivial hK
  · subst h; exact within_version env _ _ _ _ _ trivial hK

/-! ## The transaction as a whole -/

theorem runSteps_append (l1 l2 : List (Prog Bool)) (w : World) :
    runSteps (l1 ++ l2) w = match runSteps l1 w with
      | .ok true w1 => runSteps l2 w1
      | .ok false w1 => .ok false w1
      | .stop e w1 => .stop e w1 := by
  induction l1 generalizing w with
  | nil => rfl
  | cons s rest ih =>
    rw [List.cons_append, runSteps_cons, runSteps_cons]
    cases s w with
    | stop e w1 => rfl
    | ok b w1 =>
      cases b with
      | false => rfl
      | true => exact ih w1

/-- A step that fails ends the transaction in the world that step left. -/
theorem runSteps_abort (before : List (Prog Bool)) (step : Prog Bool) (after : List (Prog Bool))
    (w w1 w2 : World) (h1 : runSteps before w = .ok true w1) (h2 : step w1 = .ok false w2) :
    runSteps (before ++ step :: after) w = .ok false w2 := by
  rw [runSteps_append, h1]
  dsimp only
  rw [runSteps_cons, h2]

/-- Unless `UpdateYtDlp` returns `true`, the version marker is what it was. -/
theorem UpdateYtDlp_marker_unchanged (env : Env) (d u v : String) (w : World)
    (h : (UpdateYtDlp env d u v w).value? ≠ some true) :
    (UpdateYtDlp env d u v w).world.fs (d ++ "\\yt-dlp-version.txt")
      = w.fs (d ++ "\\yt-dlp-version.txt") := by
  have hT : ¬ (d ++ "\\yt-dlp-version.txt" = d ∨ d ++ "\\yt-dlp-version.txt" = d ++ "\\yt-dlp.exe" ∨
      d ++ "\\yt-dlp-version.txt" = d ++ "\\yt-dlp.exe" ++ ".tmp") := by
    intro hh
    rcases hh with hh | hh | hh
    · exact version_ne_dir d hh
    · exact exe_ne_version d hh.symm
    · exact exe_tmp_ne_version d hh.symm
  have hfirst : (UpdateYtDlp_prepare env d >>= fun _ =>
      runSteps [UpdateYtDlp_unlock env (d ++ "\\yt-dlp.exe"),
        UpdateYtDlp_download env u (d ++ "\\yt-dlp.exe"),
        UpdateYtDlp_integrity env d (d ++ "\\yt-dlp.exe"),
        UpdateYtDlp_readonly env (d ++ "\\yt-dlp.exe")]).Within
      (fun q => q = d ∨ q = d ++ "\\yt-dlp.exe" ∨ q = d ++ "\\yt-dlp.exe" ++ ".tmp")
      (fun _ => True) := by
    apply within_bind (within_prepare env d _ _ (Or.inl rfl) (fun _ _ _ => trivial))
    intro _
    apply within_runSteps
    intro s hs
    simp only [List.mem_cons, List.mem_singleton, List.not_mem_nil, or_false] at hs
    rcases hs with hs | hs | hs | hs
    · subst hs; exact within_unlock env _ _ _ (Or.inr (Or.inl rfl)) (fun _ _ _ => trivial)
    · subst hs
      exact within_download env _ _ _ _ (Or.inr (Or.inl rfl)) (Or.inr (Or.inr rfl))
        (fun _ _ => trivial)
    · subst hs; exact within_integrity env _ _ _ _ (Or.inr (Or.inl rfl)) (fun _ _ => trivial)
    · subst hs; exact within_readonly env _ _ _ (Or.inr (Or.inl rfl)) (fun _ _ _ => trivial)
  have hframe := hfirst.frame w _ hT
  have heq : UpdateYtDlp env d u v w = match (UpdateYtDlp_prepare env d >>= fun _ =>
      runSteps [UpdateYtDlp_unlock env (d ++ "\\yt-dlp.exe"),
        UpdateYtDlp_download env u (d ++ "\\yt-dlp.exe"),
        UpdateYtDlp_integrity env d (d ++ "\\yt-dlp.exe"),
        UpdateYtDlp_readonly env (d ++ "\\yt-dlp.exe")]) w with
      | .ok true w4 => UpdateYtDlp_version env d (d ++ "\\yt-dlp-version.txt") v w4
      | .ok false w4 => .ok false w4
      | .stop e w4 => .stop e w4 := by
    rw [UpdateYtDlp_eq_runSteps]
    simp only [Prog.bind_apply]
    cases UpdateYtDlp_prepare env d w with
    | stop e w0 => rfl
    | ok x w0 =>
      dsimp only
      have := runSteps_append [UpdateYtDlp_unlock env (d ++ "\\yt-dlp.exe"),
        UpdateYtDlp_download env u (d ++ "\\yt-dlp.exe"),
        UpdateYtDlp_integrity env d (d ++ "\\yt-dlp.exe"),
        UpdateYtDlp_readonly env (d ++ "\\yt-dlp.exe")]
        [UpdateYtDlp_version env d (d ++ "\\yt-dlp-version.txt") v] w0
      simp only [List.cons_append, List.nil_append] at this
      rw [this]
      cases runSteps [UpdateYtDlp_unlock env (d ++ "\\yt-dlp.exe"),
        UpdateYtDlp_download env u (d ++ "\\yt-dlp.exe"),
        UpdateYtDlp_integrity env d (d ++ "\\yt-dlp.exe"),
        UpdateYtDlp_readonly env (d ++ "\\yt-dlp.exe")] w0 with
      | stop e w4 => rfl
      | ok b w4 =>
        cases b with
        | false => rfl
        | true =>
          dsimp only
          rw [runSteps_cons]
          cases UpdateYtDlp_version env d (d ++ "\\yt-dlp-version.txt") v w4 with
          | stop e w5 => rfl
          | ok b w5 => cases b <;> rfl
  rw [heq] at h ⊢
  cases h4 : (UpdateYtDlp_prepare env d >>= fun _ =>
      runSteps [UpdateYtDlp_unlock env (d ++ "\\yt-dlp.exe"),
        UpdateYtDlp_download env u (d ++ "\\yt-dlp.exe"),
        UpdateYtDlp_integrity env d (d ++ "\\yt-dlp.exe"),
        UpdateYtDlp_readonly env (d ++ "\\yt-dlp.exe")]) w with
  | stop e w4 =>
    rw [h4] at hframe
    exact hframe
  | ok b w4 =>
    rw [h4] at hframe h
    cases b with
    | false => exact hframe
    | true =>
      dsimp only at h ⊢
      rw [(UpdateYtDlp_version_spec env d _ v w4 _ rfl).2 h]
      exact hframe

/-! ## A refused download inside `UpdateYtDlp` -/

/-- When an artifact exists and the trace of `UpdateYtDlp` shows a transfer
that validation refuses, the update did not succeed and nothing is left at
the artifact path: the old artifact was deleted before the download began. -/
theorem UpdateYtDlp_rejected_download (env : Env) (d u v : String) (w : World)
    (tr : Transfer) (t : List Event)
    (ht : (UpdateYtDlp env d u v w).world.trace = w.trace ++ t)
    (hmem : Event.curl_easy_perform u tr ∈ t) (hrej : tr.rejected) :
    (UpdateYtDlp env d u v w).value? ≠ some true ∧
    (UpdateYtDlp env d u v w).world.fs (d ++ "\\yt-dlp.exe") = none := by
  have hK : ∀ e : Event, e.isTransfer = false → e.isSystem = false → e.isTransfer = false :=
    fun _ h _ => h
  have hK2 : ∀ e : Event, e.isTransfer = false → e.isTransfer = false := fun _ h => h
  have hno : ∀ l : List Event, (∀ e ∈ l, e.isTransfer = false) →
      Event.curl_easy_perform u tr ∉ l := by
    intro l hl hin
    have := hl _ hin
    simp [Event.isTransfer] at this
  rw [UpdateYtDlp_eq_runSteps] at ht ⊢
  simp only [Prog.bind_apply] at ht ⊢
  obtain ⟨t0, ht0, hk0⟩ := (within_prepare env d (fun _ => True)
    (fun e => e.isTransfer = false) trivial hK).trace w
  cases h0 : UpdateYtDlp_prepare env d w with
  | stop e w0 =>
    rw [h0] at ht ht0
    simp only [Res.world] at ht ht0
    rw [ht0] at ht
    have := List.append_cancel_left ht
    subst this
    exact absurd hmem (hno _ hk0)
  | ok x w0 =>
    rw [h0] at ht ht0
    simp only [Res.world] at ht0
    dsimp only at ht ⊢
    rw [runSteps_cons] at ht ⊢
    obtain ⟨t1, ht1, hk1⟩ := (within_unlock env (d ++ "\\yt-dlp.exe") (fun _ => True)
      (fun e => e.isTransfer = false) trivial hK).trace w0
    have hfs1 := UpdateYtDlp_unlock_true env (d ++ "\\yt-dlp.exe") w0 _ rfl
    have hnot01 : Event.curl_easy_perform u tr ∉ t0 ++ t1 := by
      intro hin
      rcases List.mem_append.1 hin with hin | hin
      · exact hno _ hk0 hin
      · exact hno _ hk1 hin
    cases h1 : UpdateYtDlp_unlock env (d ++ "\\yt-dlp.exe") w0 with
    | stop e w1 =>
      rw [h1] at ht ht1
      simp only [Res.world] at ht ht1
      rw [ht1, ht0, List.append_assoc] at ht
      have := List.append_cancel_left ht
      subst this
      exact absurd hmem hnot01
    | ok b1 w1 =>
      rw [h1] at ht ht1 hfs1
      simp only [Res.world] at ht1
      cases b1 with
      | false =>
        simp only [Res.world] at ht
        rw [ht1, ht0, List.append_assoc] at ht
        have := List.append_cancel_left ht
        subst this
        exact absurd hmem hnot01
      | true =>
        have hfs1 := hfs1 rfl
        simp only [Res.world] at hfs1
        dsimp only at ht ⊢
        rw [runSteps_cons] at ht ⊢
        obtain ⟨hd1, hd2⟩ := UpdateYtDlp_download_spec env u (d ++ "\\yt-dlp.exe") w1 _ rfl
        cases h2 : UpdateYtDlp_download env u (d ++ "\\yt-dlp.exe") w1 with
        | stop e w2 =>
          rw [h2] at hd2
          exact ⟨by simp [Res.value?], hd2 hfs1 (by simp [Res.value?])⟩
        | ok b2 w2 =>
          rw [h2] at hd1 hd2 ht
          cases b2 with
          | false => exact ⟨by simp [Res.value?], hd2 hfs1 (by simp [Res.value?])⟩
          | true =>
            exfalso
            obtain ⟨tr2, a, l, td, htd, -, honly, -, -, hacc, -⟩ := hd1 rfl
            simp only [Res.world] at htd
            dsimp only at ht
            obtain ⟨t3, ht3, hk3⟩ := (within_runSteps
              [UpdateYtDlp_integrity env d (d ++ "\\yt-dlp.exe"),
                UpdateYtDlp_readonly env (d ++ "\\yt-dlp.exe"),
                UpdateYtDlp_version env d (d ++ "\\yt-dlp-version.txt") v]
              (fun _ => True) (fun e => e.isTransfer = false) (by
                intro s hs
                simp only [List.mem_cons, List.mem_singleton, List.not_mem_nil, or_false] at hs
                rcases hs with hs | hs | hs
                · subst hs; exact within_integrity env _ _ _ _ trivial hK2
                · subst hs; exact within_readonly env _ _ _ trivial hK
                · subst hs; exact within_version env _ _ _ _ _ trivial hK)).trace w2
            rw [ht3, htd, ht1, ht0] at ht
            simp only [List.append_assoc] at ht
            have := List.append_cancel_left ht
            subst this
            simp only [List.mem_append] at hmem
            rcases hmem with hin | hin | hin | hin
            · exact hno _ hk0 hin
            · exact hno _ hk1 hin
            · have := honly _ hin rfl
              simp only [Event.curl_easy_perform.injEq, true_and] at this
              subst this
              exact hacc hrej
            · exact hno _ hk3 hin

/-! ## `main` -/

/-- Once the tools path is known, the configuration is in place and the
latest release was fetched, `main` continues with `main_update`. -/
theorem main_of_prologue (env : Env) (w w0 w1 w2 : World) (p url v : String)
    (hp : GetVRChatToolsPath env w = .ok p w0) (hne : p.isEmpty = false)
    (hc : ConfigureYtDlp env p w0 = .ok true w1)
    (hf : FetchLatestReleaseInfo env "" "" w1 = .ok (true, url, v) w2) :
    main env w = main_update env p url v w2 := by
  rw [main_eq]
  simp only [Prog.bind_apply, Prog.ite_apply, hp, hne, hc, hf, Bool.false_eq_true, if_false,
    Bool.not_true]

/-- The prologue of `main` leaves the artifact and the version marker alone. -/
theorem main_prologue_frame (env : Env) (w w0 w1 w2 : World) (p url v : String)
    (hp : GetVRChatToolsPath env w = .ok p w0)
    (hc : ConfigureYtDlp env p w0 = .ok true w1)
    (hf : FetchLatestReleaseInfo env "" "" w1 = .ok (true, url, v) w2) :
    w2.fs = w1.fs ∧ ∀ q, q ≠ p ++ "\\yt-dlp.conf" → w2.fs q = w.fs q := by
  have h0 := (within_GetVRChatToolsPath env (fun _ => False) (fun _ => True)
    (fun _ _ _ => trivial)).frame w
  have h1 := (within_ConfigureYtDlp env p (fun q => q = p ++ "\\yt-dlp.conf") (fun _ => True)
    rfl (fun _ _ _ => trivial)).frame w0
  have h2 := (within_FetchLatestReleaseInfo env "" "" (fun _ => False) (fun _ => True)
    (fun _ _ => trivial)).frame w1
  rw [hp] at h0
  rw [hc] at h1
  rw [hf] at h2
  simp only [Res.world] at h0 h1 h2
  refine ⟨funext fun q => h2 q (fun h => h), fun q hq => ?_⟩
  rw [h2 q (fun h => h), h1 q hq, h0 q (fun h => h)]

/-- `ReadVersionFile` changes no file. -/
theorem ReadVersionFile_fs (env : Env) (path : String) (w : World) :
    (ReadVersionFile env path w).world.fs = w.fs :=
  funext fun q => (within_ReadVersionFile env path (fun _ => False) (fun _ => True)
    (fun _ _ _ => trivial)).frame w q (fun h => h)

/-- `ReadVersionFile` on a missing file. -/
theorem ReadVersionFile_absent (env : Env) (path : String) (w : World)
    (h : w.fs path = none) : ReadVersionFile env path w = .ok "" w := by
  simp [ReadVersionFile, fs_exists, h]

/-- `ReadVersionFile` on a regular file that opens. -/
theorem ReadVersionFile_present (env : Env) (path : String) (w : World) (c : String) (a : Nat)
    (l : Option IntegrityLevel) (h : w.fs path = some (.file c a l))
    (hopen : env.fault (.ifstream_open path) w.trace = false) :
    ReadVersionFile env path w = .ok (firstLine c) (w.log (.ifstream_open path)) := by
  simp [ReadVersionFile, fs_exists, ifstream_open, getline, h, hopen]

/-- `main_update` when the version read equals the latest one. -/
theorem main_update_same (env : Env) (p url v : String) (w2 w3 : World)
    (hr : ReadVersionFile env (p ++ "\\yt-dlp-version.txt") w2 = .ok v w3) :
    main_update env p url v w2 = .ok 0
      (((w3.log (.cout ("Current version: " ++ (if v.isEmpty then "Unknown" else v)))).log
        (.cout ("yt-dlp.exe is already up to date (version " ++ v ++ ")."))).log
        (.cout "\nPress any key to exit...")) := by
  simp [main_update, hr, cout]

/-- `main_update` when the version read differs from the latest one. -/
theorem main_update_differs (env : Env) (p url v cur : String) (w2 w3 : World)
    (hr : ReadVersionFile env (p ++ "\\yt-dlp-version.txt") w2 = .ok cur w3) (hcur : cur ≠ v) :
    main_update env p url v w2 =
      match UpdateYtDlp env p url v
        ((w3.log (.cout ("Current version: " ++ (if cur.isEmpty then "Unknown" else cur)))).log
          (.cout ("Update needed: " ++ cur ++ " -> " ++ v))) with
      | .ok true w4 => .ok 0 (w4.log (.cout "\nPress any key to exit..."))
      | .ok false w4 => .ok 1 (w4.log (.cerr "Failed to update yt-dlp.exe. Aborting."))
      | .stop e w4 => .stop e w4 := by
  simp only [main_update, hr, cout, cerr, Prog.bind_apply, Prog.pure_apply, Prog.ite_apply]
  have hb : (cur != v) = true := by simpa using hcur
  simp only [hb, Bool.not_true, Bool.false_eq_true, if_false]
  cases UpdateYtDlp env p url v _ with
  | stop e w4 => rfl
  | ok b w4 => cases b <;> rfl

/-! ## Reading the release description -/

/-- `FetchLatestReleaseInfo` is the request followed by its parsing part. -/
theorem FetchLatestReleaseInfo_eq (env : Env) (u v : String) :
    FetchLatestReleaseInfo env u v = (do
      if !(← curl_easy_init env) then
        cerr "Failed to initialize CURL"
        return (false, u, v)
      let tr ← curl_easy_perform_to_string env releasesLatestUrl
      if tr.res != 0 then
        cerr ("curl_easy_perform() failed: " ++ env.curl_easy_strerror tr.res)
        return (false, u, v)
      if tr.responseCode != 200 then
        cerr ("HTTP request failed with response code: " ++ toString tr.responseCode)
        return (false, u, v)
      FetchLatestReleaseInfo_parse env tr.body u v) := rfl

/-- A member that holds a string is read without an exception. -/
theorem Json.read_string (a : Json) (key s : String)
    (h : (a.field? key).bind Json.string? = some s) {β : Type} (k : String → Prog β) (w : World) :
    (Json.const_subscript a key >>= fun j => Json.get_string j >>= k) w = k s w := by
  cases a with
  | object kvs =>
    simp only [Json.field?] at h
    cases hj : kvs.lookup key with
    | none => simp [hj] at h
    | some j =>
      rw [hj] at h
      cases j <;> simp [Json.string?] at h
      subst h
      simp [Json.const_subscript, Json.get_string, hj]
  | _ => simp [Json.field?] at h

/-- No asset carries the name: the loop ends without a result. -/
theorem findYtDlpAsset_none (data : Json) (assets : List Json)
    (hwf : ∀ a ∈ assets, WellFormedAsset a)
    (hno : ∀ a ∈ assets, assetName? a ≠ some "yt-dlp.exe") (w : World) :
    findYtDlpAsset data assets w = .ok none w := by
  induction assets with
  | nil => rfl
  | cons a rest ih =>
    obtain ⟨n, hn⟩ := Option.isSome_iff_exists.mp (hwf a (List.mem_cons_self _ _)).1
    have hne : n ≠ "yt-dlp.exe" := fun h => hno a (List.mem_cons_self _ _) (h ▸ hn)
    rw [findYtDlpAsset]
    rw [Json.read_string a "name" n hn]
    simp only [beq_iff_eq, hne, if_false]
    exact ih (fun b hb => hwf b (List.mem_cons_of_mem _ hb))
      (fun b hb => hno b (List.mem_cons_of_mem _ hb))

/-- The first asset that carries the name gives the result. -/
theorem findYtDlpAsset_first (kvs : List (String × Json)) (tag u : String)
    (htag : kvs.lookup "tag_name" = some (.string tag))
    (pre post : List Json) (a : Json)
    (hwf : ∀ b ∈ pre, WellFormedAsset b)
    (hno : ∀ b ∈ pre, assetName? b ≠ some "yt-dlp.exe")
    (ha : assetName? a = some "yt-dlp.exe") (hu : assetUrl? a = some u) (w : World) :
    findYtDlpAsset (.object kvs) (pre ++ a :: post) w
      = .ok (some (u, tag))
          ((w.log (.cout ("Latest version: " ++ tag))).log (.cout ("Download URL: " ++ u))) := by
  induction pre with
  | nil =>
    rw [List.nil_append, findYtDlpAsset]
    rw [Json.read_string a "name" _ ha]
    simp only [beq_self_eq_true, if_true]
    rw [Json.read_string a "browser_download_url" u hu]
    simp [Json.subscript, htag, Json.get_string, cout]
  | cons b rest ih =>
    obtain ⟨n, hn⟩ := Option.isSome_iff_exists.mp (hwf b (List.mem_cons_self _ _)).1
    have hne : n ≠ "yt-dlp.exe" := fun h => hno b (List.mem_cons_self _ _) (h ▸ hn)
    rw [List.cons_append, findYtDlpAsset]
    rw [Json.read_string b "name" n hn]
    simp only [beq_iff_eq, hne, if_false]
    exact ih (fun c hc => hwf c (List.mem_cons_of_mem _ hc))
      (fun c hc => hno c (List.mem_cons_of_mem _ hc))

/-- The first element with a property splits the list. -/
theorem List.exists_first {α : Type} (p : α → Prop) [DecidablePred p] (l : List α)
    (h : ∃ a ∈ l, p a) :
    ∃ pre a post, l = pre ++ a :: post ∧ (∀ b ∈ pre, ¬ p b) ∧ p a := by
  induction l with
  | nil => simp at h
  | cons x xs ih =>
    by_cases hx : p x
    · exact ⟨[], x, xs, rfl, by simp, hx⟩
    · obtain ⟨a, ha, hpa⟩ := h
      have hin : a ∈ xs := by
        rcases List.mem_cons.mp ha with rfl | h
        · exact absurd hpa hx
        · exact h
      obtain ⟨pre, b, post, hl, hpre, hb⟩ := ih ⟨a, hin, hpa⟩
      refine ⟨x :: pre, b, post, by rw [hl, List.cons_append], ?_, hb⟩
      intro c hc
      rcases List.mem_cons.mp hc with rfl | h
      · exact hx
      · exact hpre c h

/-- The parsing part on a release without the asset. -/
theorem FetchLatestReleaseInfo_parse_none (env : Env) (response url0 ver0 : String)
    (kvs : List (String × Json)) (assets : List Json) (w : World)
    (hparse : env.json_parse response = some (.object kvs))
    (hassets : kvs.lookup "assets" = some (.array assets))
    (hwf : ∀ a ∈ assets, WellFormedAsset a)
    (hno : ∀ a ∈ assets, assetName? a ≠ some "yt-dlp.exe") :
    FetchLatestReleaseInfo_parse env response url0 ver0 w
      = .ok (false, url0, ver0)
          (w.log (.cerr "yt-dlp.exe asset not found in the latest release.")) := by
  simp [FetchLatestReleaseInfo_parse, tryCatch, json_parse, hparse, Json.subscript, hassets,
    Json.items, findYtDlpAsset_none (.object kvs) assets hwf hno, cerr]

/-- The parsing part on a release with the asset. -/
theorem FetchLatestReleaseInfo_parse_first (env : Env) (response url0 ver0 tag u : String)
    (kvs : List (String × Json)) (pre post : List Json) (a : Json) (w : World)
    (hparse : env.json_parse response = some (.object kvs))
    (htag : kvs.lookup "tag_name" = some (.string tag))
    (hassets : kvs.lookup "assets" = some (.array (pre ++ a :: post)))
    (hwf : ∀ b ∈ pre, WellFormedAsset b)
    (hno : ∀ b ∈ pre, assetName? b ≠ some "yt-dlp.exe")
    (ha : assetName? a = some "yt-dlp.exe") (hu : assetUrl? a = some u) :
    FetchLatestReleaseInfo_parse env response url0 ver0 w
      = .ok (true, u, tag)
          ((w.log (.cout ("Latest version: " ++ tag))).log (.cout ("Download URL: " ++ u))) := by
  simp [FetchLatestReleaseInfo_parse, tryCatch, json_parse, hparse, Json.subscript, hassets,
    Json.items, findYtDlpAsset_first kvs tag u htag pre post a hwf hno ha hu]

/-! ## The read-only bit -/

/-- Clearing the read-only bit of a 32-bit word keeps every other bit. -/
theorem testBit_clear_readonly (a i : Nat) (ha : a < 2 ^ 32) :
    (a &&& NOT_FILE_ATTRIBUTE_READONLY).testBit i = (a.testBit i && decide (i ≠ 0)) := by
  rw [Nat.testBit_and]
  by_cases hi : i < 32
  · have hm : NOT_FILE_ATTRIBUTE_READONLY.testBit i = decide (i ≠ 0) := by
      interval_cases i <;> decide
    rw [hm]
  · have hz : a.testBit i = false :=
      Nat.testBit_lt_two_pow (Nat.lt_of_lt_of_le ha
        (Nat.pow_le_pow_right (by decide) (Nat.le_of_not_lt hi)))
    rw [hz]
    rfl

/-- Setting the read-only bit keeps every other bit. -/
theorem testBit_set_readonly (a i : Nat) :
    (a ||| FILE_ATTRIBUTE_READONLY).testBit i = (a.testBit i || decide (i = 0)) := by
  rw [Nat.testBit_or]
  cases i with
  | zero => simp [FILE_ATTRIBUTE_READONLY]
  | succ j => simp [FILE_ATTRIBUTE_READONLY, Nat.testBit_succ]

/-- Both attribute functions refuse what is not a regular file. -/
theorem readOnlyAttribute_not_file (env : Env) (p : String) (w : World)
    (h : w.fs p = none ∨ ∃ a, w.fs p = some (.dir a)) :
    RemoveReadOnlyAttribute env p w = .ok false (w.log (.cerr ("Path is not a file: " ++ p))) ∧
    SetReadOnlyAttribute env p w = .ok false (w.log (.cerr ("Path is not a file: " ++ p))) := by
  rcases h with h | ⟨a, h⟩
  · simp [RemoveReadOnlyAttribute, SetReadOnlyAttribute, fs_is_regular_file, cerr, h]
  · simp [RemoveReadOnlyAttribute, SetReadOnlyAttribute, fs_is_regular_file, cerr, h,
      Node.isFile]

/-- A successful `RemoveReadOnlyAttribute` on a regular file: nothing but the
query when the bit is clear, one `SetFileAttributesA` with the bit masked out
when it is set. -/
theorem RemoveReadOnlyAttribute_true (env : Env) (p : String) (w : World) (c : String)
    (a : Nat) (l : Option IntegrityLevel) (hp : w.fs p = some (.file c a l))
    (h : (RemoveReadOnlyAttribute env p w).value? = some true) :
    (a &&& FILE_ATTRIBUTE_READONLY = 0 →
      RemoveReadOnlyAttribute env p w = .ok true (w.log (.GetFileAttributesA p))) ∧
    (a &&& FILE_ATTRIBUTE_READONLY ≠ 0 →
      (RemoveReadOnlyAttribute env p w).world.fs
        = fsSet w.fs p (some (.file c (a &&& NOT_FILE_ATTRIBUTE_READONLY) l)) ∧
      (RemoveReadOnlyAttribute env p w).world.trace = w.trace ++ [.GetFileAttributesA p,
        .SetFileAttributesA p (a &&& NOT_FILE_ATTRIBUTE_READONLY),
        .cout ("Removed read-only attribute from: " ++ p)]) := by
  generalize hr : RemoveReadOnlyAttribute env p w = r at h ⊢
  by_cases hf1 : env.fault (Event.GetFileAttributesA p) w.trace = true
  · simp only [RemoveReadOnlyAttribute, fs_is_regular_file, GetFileAttributesA, GetLastError,
      cerr, Prog.bind_apply, Prog.pure_apply, Prog.ite_apply, hp, hf1, Node.isFile,
      Bool.not_true, Bool.false_eq_true, if_false, if_true] at hr
    subst hr
    simp [Res.value?] at h
  · by_cases hb : a &&& FILE_ATTRIBUTE_READONLY = 0
    · simp only [RemoveReadOnlyAttribute, fs_is_regular_file, GetFileAttributesA,
        SetFileAttributesA, GetLastError, cerr, cout, Prog.bind_apply, Prog.pure_apply,
        Prog.ite_apply, World.log_fs, hp, hf1, hb, Node.isFile, Node.attrs, Bool.not_true,
        Bool.not_false, Bool.false_eq_true, bne_self_eq_false, if_false, if_true] at hr
      subst hr
      exact ⟨fun _ => rfl, fun hn => absurd hb hn⟩
    · have hb2 : (a &&& FILE_ATTRIBUTE_READONLY != 0) = true := by simpa using hb
      by_cases hf2 : env.fault (Event.SetFileAttributesA p (a &&& NOT_FILE_ATTRIBUTE_READONLY))
          (w.log (.GetFileAttributesA p)).trace = true
      · simp only [RemoveReadOnlyAttribute, fs_is_regular_file, GetFileAttributesA,
          SetFileAttributesA, GetLastError, cerr, cout, Prog.bind_apply, Prog.pure_apply,
          Prog.ite_apply, World.log_fs, hp, hf1, hf2, hb2, Node.isFile, Node.attrs,
          Bool.not_true, Bool.not_false, Bool.false_eq_true, if_false, if_true] at hr
        subst hr
        simp [Res.value?] at h
      · simp only [RemoveReadOnlyAttribute, fs_is_regular_file, GetFileAttributesA,
          SetFileAttributesA, GetLastError, cerr, cout, Prog.bind_apply, Prog.pure_apply,
          Prog.ite_apply, World.log_fs, hp, hf1, hf2, hb2, Node.isFile, Node.attrs,
          Bool.not_true, Bool.not_false, Bool.false_eq_true, if_false, if_true] at hr
        subst hr
        exact ⟨fun h0 => absurd h0 hb,
          fun _ => ⟨by simp [Res.world, Node.withAttrs], by simp [Res.world]⟩⟩

/-- A successful `SetReadOnlyAttribute` on a regular file changes the
attribute word of that file and nothing else. -/
theorem SetReadOnlyAttribute_fs (env : Env) (p : String) (w : World) (c : String)
    (a : Nat) (l : Option IntegrityLevel) (hp : w.fs p = some (.file c a l))
    (h : (SetReadOnlyAttribute env p w).value? = some true) :
    (SetReadOnlyAttribute env p w).world.fs
      = fsSet w.fs p (some (.file c (a ||| FILE_ATTRIBUTE_READONLY) l)) := by
  generalize hr : SetReadOnlyAttribute env p w = r at h ⊢
  by_cases hf1 : env.fault (Event.GetFileAttributesA p) w.trace = true
  · simp only [SetReadOnlyAttribute, fs_is_regular_file, GetFileAttributesA, GetLastError,
      cerr, Prog.bind_apply, Prog.pure_apply, Prog.ite_apply, hp, hf1, Node.isFile,
      Bool.not_true, Bool.false_eq_true, if_false, if_true] at hr
    subst hr
    simp [Res.value?] at h
  · by_cases hf2 : env.fault (Event.SetFileAttributesA p (a ||| FILE_ATTRIBUTE_READONLY))
        (w.log (.GetFileAttributesA p)).trace = true
    · simp only [SetReadOnlyAttribute, fs_is_regular_file, GetFileAttributesA,
        SetFileAttributesA, GetLastError, cerr, cout, Prog.bind_apply, Prog.pure_apply,
        Prog.ite_apply, World.log_fs, hp, hf1, hf2, Node.isFile, Node.attrs, Bool.not_true,
        Bool.not_false, Bool.false_eq_true, if_false, if_true] at hr
      subst hr
      simp [Res.value?] at h
    · simp only [SetReadOnlyAttribute, fs_is_regular_file, GetFileAttributesA,
        SetFileAttributesA, GetLastError, cerr, cout, Prog.bind_apply, Prog.pure_apply,
        Prog.ite_apply, World.log_fs, hp, hf1, hf2, Node.isFile, Node.attrs, Bool.not_true,
        Bool.not_false, Bool.false_eq_true, if_false, if_true] at hr
      subst hr
      simp [Res.world, Node.withAttrs]

/-! ## The version marker, written and read back -/

/-- C5 (counterexample): with an unlocked old artifact at the output path, a
download that passes validation and a rename the platform refuses,
`DownloadFile` returns `false`, although the old file has been removed and
nothing is left at the output path. -/
theorem C5_counterexample :
    (DownloadFile envRenameFault exampleUrl (toolsDir ++ "\\yt-dlp.exe") wUnlocked).value?
      = some false ∧
    wUnlocked.fs (toolsDir ++ "\\yt-dlp.exe") = some unlockedArtifact ∧
    (DownloadFile envRenameFault exampleUrl (toolsDir ++ "\\yt-dlp.exe") wUnlocked).world.fs
      (toolsDir ++ "\\yt-dlp.exe") = none := by
  decide

/-- C5 (amended): when `DownloadFile` returns `false`, the staging file is
gone unless the call failed before staging anything (then the whole file
system is as before), and the output path holds what it held before unless
the rename of the staged file was attempted and raised after the old file
had been removed (then nothing is at the output path). -/
theorem C5_DownloadFile_failure (env : Env) (url out : String) (w : World)
    (h : (DownloadFile env url out w).value? = some false) :
    ((DownloadFile env url out w).world.fs = w.fs ∨
      (DownloadFile env url out w).world.fs (out ++ ".tmp") = none) ∧
    ((DownloadFile env url out w).world.fs out = w.fs out ∨
      ((DownloadFile env url out w).world.fs out = none ∧
        ∃ t, (DownloadFile env url out w).world.trace = w.trace ++ t ∧
          Event.fs_rename (out ++ ".tmp") out ∈ t)) := by
  rcases DownloadFile_spec env url out w _ rfl with ⟨-, hfs, -⟩ | ⟨tr, a, l, t, ht, -, hbad, hgood⟩
  · exact ⟨Or.inl hfs, Or.inl (by rw [hfs])⟩
  · by_cases hb : tr.res ≠ 0 ∨ tr.responseCode ≠ 200 ∨ tr.rejected
    · obtain ⟨-, h2, h3, -⟩ := hbad hb
      exact ⟨Or.inr (h3 h), Or.inl h2⟩
    · obtain ⟨-, -, h3, -⟩ := hgood hb
      obtain ⟨h4, h5⟩ := h3 h
      refine ⟨Or.inr h4, ?_⟩
      rcases h5 with h5 | ⟨h5, h6⟩
      · exact Or.inl h5
      · exact Or.inr ⟨h5, _, ht.trans (List.append_assoc _ _ _), List.mem_append_right _ h6⟩

/-- C5 (witness): a download cut short over an installed artifact. -/
theorem C5_DownloadFile_failure_witness :
    (DownloadFile envShort exampleUrl (toolsDir ++ "\\yt-dlp.exe") wInstalled).value?
      = some false ∧
    (((DownloadFile envShort exampleUrl (toolsDir ++ "\\yt-dlp.exe") wInstalled).world.fs
        = wInstalled.fs ∨
      (DownloadFile envShort exampleUrl (toolsDir ++ "\\yt-dlp.exe") wInstalled).world.fs
        (toolsDir ++ "\\yt-dlp.exe" ++ ".tmp") = none) ∧
    ((DownloadFile envShort exampleUrl (toolsDir ++ "\\yt-dlp.exe") wInstalled).world.fs
        (toolsDir ++ "\\yt-dlp.exe") = wInstalled.fs (toolsDir ++ "\\yt-dlp.exe") ∨
      ((DownloadFile envShort exampleUrl (toolsDir ++ "\\yt-dlp.exe") wInstalled).world.fs
          (toolsDir ++ "\\yt-dlp.exe") = none ∧
        ∃ t, (DownloadFile envShort exampleUrl (toolsDir ++ "\\yt-dlp.exe")
            wInstalled).world.trace = wInstalled.trace ++ t ∧
          Event.fs_rename (toolsDir ++ "\\yt-dlp.exe" ++ ".tmp")
            (toolsDir ++ "\\yt-dlp.exe") ∈ t))) :=
  ⟨by decide,
    C5_DownloadFile_failure envShort exampleUrl (toolsDir ++ "\\yt-dlp.exe") wInstalled
      (by decide)⟩

/-- C9: the containment check guards the external command.  On the fragment
of `UpdateYtDlp` that applies the integrity level (lines 417-439), for every
artifact path `p` that does not start with the managed directory `d`
(`p.find(d) != 0`), the fragment returns `false` having only written to the
console: no command is started and the file system, so also the read-only
attribute and the version marker, is untouched.  In every execution of
`UpdateYtDlp`, the only command ever started is `icacls` on the artifact path,
started from that fragment behind the check, and the path `UpdateYtDlp`
builds always starts with the managed directory. -/
theorem C9_icacls_only_inside_managed_directory (env : Env) (d u v : String) :
    (∀ (p : String) (w : World), std_string_find p d ≠ some 0 →
      (UpdateYtDlp_integrity env d p w).value? = some false ∧
      (UpdateYtDlp_integrity env d p w).world.fs = w.fs ∧
      ∃ t, (UpdateYtDlp_integrity env d p w).world.trace = w.trace ++ t ∧
        ∀ e ∈ t, e.isConsole = true) ∧
    (∀ (w : World) (t : List Event), (UpdateYtDlp env d u v w).world.trace = w.trace ++ t →
      ∀ e ∈ t, e.isSystem = true →
        e = Event.system ("icacls \"" ++ (d ++ "\\yt-dlp.exe") ++ "\" /setintegritylevel medium") ∧
        std_string_find (d ++ "\\yt-dlp.exe") d = some 0) ∧
    UpdateYtDlp env d u v = (do
      UpdateYtDlp_prepare env d
      runSteps [UpdateYtDlp_unlock env (d ++ "\\yt-dlp.exe"),
        UpdateYtDlp_download env u (d ++ "\\yt-dlp.exe"),
        UpdateYtDlp_integrity env d (d ++ "\\yt-dlp.exe"),
        UpdateYtDlp_readonly env (d ++ "\\yt-dlp.exe"),
        UpdateYtDlp_version env d (d ++ "\\yt-dlp-version.txt") v]) := by
  refine ⟨fun p w h => (UpdateYtDlp_integrity_spec env d p w _ rfl).1 h, ?_,
    UpdateYtDlp_eq_runSteps env d u v⟩
  intro w t ht e he hs
  obtain ⟨t2, ht2, hk⟩ := (within_UpdateYtDlp_guard env d u v).trace w
  rw [ht] at ht2
  have := List.append_cancel_left ht2
  subst this
  exact hk e he hs

/-- C9 (witness): a regular file outside the managed directory is refused at
the containment check, and the run over an installed artifact starts
`icacls` on the artifact. -/
theorem C9_icacls_only_inside_managed_directory_witness :
    std_string_find "C:\\Elsewhere\\yt-dlp.exe" toolsDir ≠ some 0 ∧
    (UpdateYtDlp_integrity envOk toolsDir "C:\\Elsewhere\\yt-dlp.exe" wOutside).value?
      = some false ∧
    Event.cerr "Security check failed: yt-dlp.exe path is outside the expected directory" ∈
      (UpdateYtDlp_integrity envOk toolsDir "C:\\Elsewhere\\yt-dlp.exe" wOutside).world.trace ∧
    Event.system ("icacls \"" ++ (toolsDir ++ "\\yt-dlp.exe") ++ "\" /setintegritylevel medium") ∈
      (UpdateYtDlp envOk toolsDir exampleUrl "2024.01.01" wInstalled).world.trace ∧
    std_string_find (toolsDir ++ "\\yt-dlp.exe") toolsDir = some 0 :=
  have h := C9_icacls_only_inside_managed_directory envOk toolsDir exampleUrl "2024.01.01"
  ⟨by decide,
    (h.1 "C:\\Elsewhere\\yt-dlp.exe" wOutside (by decide)).1,
    by decide,
    by decide,
    (h.2.1 wInstalled (UpdateYtDlp envOk toolsDir exampleUrl "2024.01.01" wInstalled).world.trace
      (by decide)
      (Event.system ("icacls \"" ++ (toolsDir ++ "\\yt-dlp.exe") ++ "\" /setintegritylevel medium"))
      (by decide) (by decide)).2⟩

/-! ## Claims about `UpdateYtDlp` -/

/-- C2 (code at the failing input): version 2023.12.01 is installed with its
artifact and the platform refuses to remove files.  The step that unlocks and
deletes the old artifact fails: `fs::remove` raises, and `UpdateYtDlp` does
not return `false` but ends with that exception, which `main` does not handle
either.  The removal is the last thing the run did, no transfer was started
and the version marker is what it was.  In a fresh directory a download cut
short fails the same way, in the removal of the staging file.  A step that
reports its failure, like the download cut short where removals are allowed,
makes `UpdateYtDlp` return `false`. -/
theorem C2_raising_step_escapes :
    wInstalled.fs (toolsDir ++ "\\yt-dlp.exe") = some oldArtifact ∧
    (UpdateYtDlp envRemoveFault toolsDir exampleUrl "2024.01.01" wInstalled).value? = none ∧
    (UpdateYtDlp envRemoveFault toolsDir exampleUrl "2024.01.01" wInstalled).exn?
      = some .filesystem_error ∧
    (UpdateYtDlp envRemoveFault toolsDir exampleUrl "2024.01.01" wInstalled).world.trace.getLast?
      = some (.fs_remove (toolsDir ++ "\\yt-dlp.exe")) ∧
    (∀ e ∈ (UpdateYtDlp envRemoveFault toolsDir exampleUrl "2024.01.01" wInstalled).world.trace,
      e.isTransfer = false ∧ e.isSystem = false) ∧
    (UpdateYtDlp envRemoveFault toolsDir exampleUrl "2024.01.01" wInstalled).world.fs
      (toolsDir ++ "\\yt-dlp-version.txt") = wInstalled.fs (toolsDir ++ "\\yt-dlp-version.txt") ∧
    (main envRemoveFault wInstalled).value? = none ∧
    (main envRemoveFault wInstalled).exn? = some .filesystem_error ∧
    (UpdateYtDlp envShortRemoveFault toolsDir exampleUrl "2024.01.01" wFresh).exn?
      = some .filesystem_error ∧
    (UpdateYtDlp envShortRemoveFault toolsDir exampleUrl "2024.01.01" wFresh).world.trace.getLast?
      = some (.fs_remove (toolsDir ++ "\\yt-dlp.exe" ++ ".tmp")) ∧
    (UpdateYtDlp envShort toolsDir exampleUrl "2024.01.01" wFresh).value? = some false := by
  decide

/-- C1 (counterexample): version 2023.12.01 is installed with its artifact,
the registry announces 2024.01.01, and the download delivers 3 bytes where
10 were announced.  The run fails with exit code 1, and the artifact path,
which held the old artifact before the run, holds nothing after it. -/
theorem C1_counterexample :
    wInstalled.fs (toolsDir ++ "\\yt-dlp.exe") = some oldArtifact ∧
    Event.curl_easy_perform exampleUrl shortDownload ∈ (main envShort wInstalled).world.trace ∧
    0 < shortDownload.contentLength ∧
    shortDownload.contentLength.toNat ≠ shortDownload.body.length ∧
    (main envShort wInstalled).value? = some 1 ∧
    (main envShort wInstalled).world.fs (toolsDir ++ "\\yt-dlp.exe") = none := by
  decide

/-- C1 (amended): in a run of `main` that reaches the comparison of the
versions with an artifact in place and a stored version that differs from
the remote one, and in which the download reports a positive expected length
that the staged size does not match, the run fails (it does not exit with
code 0) and the version marker is what it was before the run; but the old
artifact is not kept: `UpdateYtDlp` deleted it before the download began, and
after the run no file is at the artifact path. -/
theorem C1_size_mismatch_run (env : Env) (w w0 w1 w2 w3 : World) (p url v cur : String)
    (tr : Transfer) (t : List Event)
    (hp : GetVRChatToolsPath env w = .ok p w0) (hne : p.isEmpty = false)
    (hc : ConfigureYtDlp env p w0 = .ok true w1)
    (hf : FetchLatestReleaseInfo env "" "" w1 = .ok (true, url, v) w2)
    (hr : ReadVersionFile env (p ++ "\\yt-dlp-version.txt") w2 = .ok cur w3)
    (hcur : cur ≠ v)
    (hart : (w.fs (p ++ "\\yt-dlp.exe")).isSome = true)
    (ht : (main env w).world.trace = w3.trace ++ t)
    (hmem : Event.curl_easy_perform url tr ∈ t)
    (hlen : 0 < tr.contentLength) (hsize : tr.contentLength.toNat ≠ tr.body.length) :
    (main env w).value? ≠ some 0 ∧
    (main env w).world.fs (p ++ "\\yt-dlp.exe") = none ∧
    (main env w).world.fs (p ++ "\\yt-dlp.exe") ≠ w.fs (p ++ "\\yt-dlp.exe") ∧
    (main env w).world.fs (p ++ "\\yt-dlp-version.txt") = w.fs (p ++ "\\yt-dlp-version.txt") := by
  have hrej : tr.rejected := Or.inr ⟨hlen, hsize⟩
  have hmain := main_of_prologue env w w0 w1 w2 p url v hp hne hc hf
  rw [main_update_differs env p url v cur w2 w3 hr hcur] at hmain
  obtain ⟨-, hpro⟩ := main_prologue_frame env w w0 w1 w2 p url v hp hc hf
  have hfs3 : w3.fs = w2.fs := by
    have := ReadVersionFile_fs env (p ++ "\\yt-dlp-version.txt") w2
    rw [hr] at this
    exact this
  generalize hw : (w3.log (.cout ("Current version: " ++
    (if cur.isEmpty then "Unknown" else cur)))).log
    (.cout ("Update needed: " ++ cur ++ " -> " ++ v)) = wU at hmain
  have hwfs : wU.fs = w3.fs := by rw [← hw]; rfl
  have hwtr : wU.trace = w3.trace ++ [.cout ("Current version: " ++
      (if cur.isEmpty then "Unknown" else cur)),
      .cout ("Update needed: " ++ cur ++ " -> " ++ v)] := by
    rw [← hw]; simp
  obtain ⟨tU, htU, -⟩ := (within_UpdateYtDlp_guard env p url v).trace wU
  have hmarker := UpdateYtDlp_marker_unchanged env p url v wU
  have hkey := UpdateYtDlp_rejected_download env p url v wU tr tU htU
  have hm0 : w.fs (p ++ "\\yt-dlp-version.txt") = wU.fs (p ++ "\\yt-dlp-version.txt") := by
    rw [hwfs, hfs3, hpro _ (version_ne_conf p)]
  have hnone : w.fs (p ++ "\\yt-dlp.exe") ≠ none := by
    intro hh
    rw [hh] at hart
    simp at hart
  rw [hmain] at ht ⊢
  cases hU : UpdateYtDlp env p url v wU with
  | stop e w4 =>
    rw [hU] at ht htU hmarker hkey
    simp only [Res.world] at ht htU hmarker hkey ⊢
    rw [htU, hwtr, List.append_assoc] at ht
    have := List.append_cancel_left ht
    subst this
    have hin : Event.curl_easy_perform url tr ∈ tU := by
      simpa using hmem
    obtain ⟨-, h2⟩ := hkey hin hrej
    refine ⟨by simp [Res.value?], h2, ?_, ?_⟩
    · rw [h2]; exact fun hh => hnone hh.symm
    · rw [hmarker (by simp [Res.value?]), hm0]
  | ok b w4 =>
    rw [hU] at ht htU hmarker hkey
    cases b with
    | true =>
      exfalso
      simp only [Res.world, World.log_trace] at ht htU
      rw [htU, hwtr] at ht
      simp only [List.append_assoc] at ht
      have := List.append_cancel_left ht
      subst this
      have hin : Event.curl_easy_perform url tr ∈ tU := by
        simpa using hmem
      exact (hkey hin hrej).1 rfl
    | false =>
      simp only [Res.world, World.log_trace, World.log_fs] at ht htU hmarker hkey ⊢
      rw [htU, hwtr] at ht
      simp only [List.append_assoc] at ht
      have := List.append_cancel_left ht
      subst this
      have hin : Event.curl_easy_perform url tr ∈ tU := by
        simpa using hmem
      obtain ⟨-, h2⟩ := hkey hin hrej
      refine ⟨by simp [Res.value?], h2, ?_, ?_⟩
      · rw [h2]; exact fun hh => hnone hh.symm
      · rw [hmarker (by simp [Res.value?]), hm0]

/-- C1 (witness): the run of the counterexample. -/
theorem C1_size_mismatch_run_witness :
    (main envShort wInstalled).value? ≠ some 0 ∧
    (main envShort wInstalled).world.fs (toolsDir ++ "\\yt-dlp.exe") = none ∧
    (main envShort wInstalled).world.fs (toolsDir ++ "\\yt-dlp-version.txt")
      = some (.file "2023.12.01" FILE_ATTRIBUTE_ARCHIVE none) :=
  have h := C1_size_mismatch_run envShort wInstalled
    (GetVRChatToolsPath envShort wInstalled).world
    (ConfigureYtDlp envShort toolsDir (GetVRChatToolsPath envShort wInstalled).world).world
    (FetchLatestReleaseInfo envShort "" ""
      (ConfigureYtDlp envShort toolsDir (GetVRChatToolsPath envShort wInstalled).world).world).world
    (ReadVersionFile envShort (toolsDir ++ "\\yt-dlp-version.txt")
      (FetchLatestReleaseInfo envShort "" ""
        (ConfigureYtDlp envShort toolsDir
          (GetVRChatToolsPath envShort wInstalled).world).world).world).world
    toolsDir exampleUrl "2024.01.01" "2023.12.01" shortDownload
    ((main envShort wInstalled).world.trace.drop 7)
    rfl (by decide) rfl rfl rfl (by decide) (by decide) (by decide) (by decide) (by decide)
    (by decide)
  ⟨h.1, h.2.1, h.2.2.2.trans (by decide)⟩

/-- C3: in a run of `main` in which the version read from the marker file
equals the version of the remote release, `main` exits with code 0, and from
the reading of the marker on it only writes three console lines: no call of
`UpdateYtDlp`, no transfer, no command, no change of any file.  The file
system at the end is the one the configuration step left, and the artifact
(content, attributes, integrity label) is what it was before the run. -/
theorem C3_up_to_date_run (env : Env) (w w0 w1 w2 w3 : World) (p url v : String)
    (hp : GetVRChatToolsPath env w = .ok p w0) (hne : p.isEmpty = false)
    (hc : ConfigureYtDlp env p w0 = .ok true w1)
    (hf : FetchLatestReleaseInfo env "" "" w1 = .ok (true, url, v) w2)
    (hr : ReadVersionFile env (p ++ "\\yt-dlp-version.txt") w2 = .ok v w3) :
    (main env w).value? = some 0 ∧
    (main env w).world.trace = w3.trace ++
      [.cout ("Current version: " ++ (if v.isEmpty then "Unknown" else v)),
        .cout ("yt-dlp.exe is already up to date (version " ++ v ++ ")."),
        .cout "\nPress any key to exit..."] ∧
    (main env w).world.fs = w1.fs ∧
    (main env w).world.fs (p ++ "\\yt-dlp.exe") = w.fs (p ++ "\\yt-dlp.exe") := by
  have hmain := main_of_prologue env w w0 w1 w2 p url v hp hne hc hf
  rw [main_update_same env p url v w2 w3 hr] at hmain
  obtain ⟨h21, hpro⟩ := main_prologue_frame env w w0 w1 w2 p url v hp hc hf
  have hfs3 : w3.fs = w2.fs := by
    have := ReadVersionFile_fs env (p ++ "\\yt-dlp-version.txt") w2
    rw [hr] at this
    exact this
  rw [hmain]
  refine ⟨rfl, by simp [Res.world], ?_, ?_⟩
  · simp only [Res.world, World.log_fs]
    rw [hfs3, h21]
  · simp only [Res.world, World.log_fs]
    rw [hfs3, hpro _ (exe_ne_conf p)]

/-- C3 (witness): version 2024.01.01 is installed and is the latest. -/
theorem C3_up_to_date_run_witness :
    (main envOk wCurrent).value? = some 0 ∧
    (main envOk wCurrent).world.fs (toolsDir ++ "\\yt-dlp.exe") = some oldArtifact :=
  have h := C3_up_to_date_run envOk wCurrent
    (GetVRChatToolsPath envOk wCurrent).world
    (ConfigureYtDlp envOk toolsDir (GetVRChatToolsPath envOk wCurrent).world).world
    (FetchLatestReleaseInfo envOk "" ""
      (ConfigureYtDlp envOk toolsDir (GetVRChatToolsPath envOk wCurrent).world).world).world
    (ReadVersionFile envOk (toolsDir ++ "\\yt-dlp-version.txt")
      (FetchLatestReleaseInfo envOk "" ""
        (ConfigureYtDlp envOk toolsDir
          (GetVRChatToolsPath envOk wCurrent).world).world).world).world
    toolsDir exampleUrl "2024.01.01" rfl (by decide) rfl rfl rfl
  ⟨h.1, h.2.2.2.trans (by decide)⟩

/-- C10 (counterexample): with no marker file and a release whose `tag_name`
is the empty string, `main` reports that the artifact is up to date, exits
with code 0 and never enters `UpdateYtDlp`; and `ReadVersionFile` gives the
same answer for a missing marker and for a marker that is an empty file. -/
theorem C10_counterexample :
    wFresh.fs (toolsDir ++ "\\yt-dlp-version.txt") = none ∧
    (main envEmptyTag wFresh).value? = some 0 ∧
    Event.cout "yt-dlp.exe is already up to date (version )." ∈
      (main envEmptyTag wFresh).world.trace ∧
    Event.cout ("Using VRChat Tools directory: " ++ toolsDir) ∉
      (main envEmptyTag wFresh).world.trace ∧
    (wEmptyMarker.fs (toolsDir ++ "\\yt-dlp-version.txt")).isSome = true ∧
    (ReadVersionFile envOk (toolsDir ++ "\\yt-dlp-version.txt") wFresh).value?
      = (ReadVersionFile envOk (toolsDir ++ "\\yt-dlp-version.txt") wEmptyMarker).value? := by
  decide

/-- C10 (amended): `ReadVersionFile` returns the empty string when the marker
file is missing, and the first line of the file, unmodified, when it is a
regular file that opens; in a run of `main` without a marker file, for every
remote version other than the empty string, `main` decides that an update is
needed and calls `UpdateYtDlp`, whose result decides the exit code. -/
theorem C10_absent_marker (env : Env) :
    (∀ (path : String) (w : World), w.fs path = none →
      ReadVersionFile env path w = .ok "" w) ∧
    (∀ (path : String) (w : World) (c : String) (a : Nat) (l : Option IntegrityLevel),
      w.fs path = some (.file c a l) → env.fault (.ifstream_open path) w.trace = false →
      ReadVersionFile env path w = .ok (firstLine c) (w.log (.ifstream_open path))) ∧
    (∀ (w w0 w1 w2 : World) (p url v : String),
      GetVRChatToolsPath env w = .ok p w0 → p.isEmpty = false →
      ConfigureYtDlp env p w0 = .ok true w1 →
      FetchLatestReleaseInfo env "" "" w1 = .ok (true, url, v) w2 →
      w.fs (p ++ "\\yt-dlp-version.txt") = none → v ≠ "" →
      main env w =
        match UpdateYtDlp env p url v
          ((w2.log (.cout "Current version: Unknown")).log
            (.cout ("Update needed: " ++ "" ++ " -> " ++ v))) with
        | .ok true w4 => .ok 0 (w4.log (.cout "\nPress any key to exit..."))
        | .ok false w4 => .ok 1 (w4.log (.cerr "Failed to update yt-dlp.exe. Aborting."))
        | .stop e w4 => .stop e w4) := by
  refine ⟨fun path w h => ReadVersionFile_absent env path w h,
    fun path w c a l h ho => ReadVersionFile_present env path w c a l h ho, ?_⟩
  intro w w0 w1 w2 p url v hp hne hc hf habs hv
  obtain ⟨-, hpro⟩ := main_prologue_frame env w w0 w1 w2 p url v hp hc hf
  have habs2 : w2.fs (p ++ "\\yt-dlp-version.txt") = none := by
    rw [hpro _ (version_ne_conf p)]
    exact habs
  have hr := ReadVersionFile_absent env (p ++ "\\yt-dlp-version.txt") w2 habs2
  rw [main_of_prologue env w w0 w1 w2 p url v hp hne hc hf,
    main_update_differs env p url v "" w2 w2 hr (fun h => hv h.symm)]
  rfl

/-- C10 (witness): a fresh directory and release 2024.01.01: `main` hands
over to `UpdateYtDlp`, the update is made and the run exits with code 0. -/
theorem C10_absent_marker_witness :
    (ReadVersionFile envOk (toolsDir ++ "\\yt-dlp-version.txt") wFresh).value? = some "" ∧
    (ReadVersionFile envOk (toolsDir ++ "\\yt-dlp-version.txt") wInstalled).value?
      = some "2023.12.01" ∧
    (main envOk wFresh =
      match UpdateYtDlp envOk toolsDir exampleUrl "2024.01.01"
        (((FetchLatestReleaseInfo envOk "" ""
          (ConfigureYtDlp envOk toolsDir (GetVRChatToolsPath envOk wFresh).world).world).world.log
            (.cout "Current version: Unknown")).log
          (.cout ("Update needed: " ++ "" ++ " -> " ++ "2024.01.01"))) with
      | .ok true w4 => .ok 0 (w4.log (.cout "\nPress any key to exit..."))
      | .ok false w4 => .ok 1 (w4.log (.cerr "Failed to update yt-dlp.exe. Aborting."))
      | .stop e w4 => .stop e w4) ∧
    (main envOk wFresh).value? = some 0 ∧
    (main envOk wFresh).world.fs (toolsDir ++ "\\yt-dlp-version.txt")
      = some (.file "2024.01.01" FILE_ATTRIBUTE_ARCHIVE none) :=
  have h := C10_absent_marker envOk
  ⟨congrArg Res.value? (h.1 (toolsDir ++ "\\yt-dlp-version.txt") wFresh (by decide)),
    (congrArg Res.value? (h.2.1 (toolsDir ++ "\\yt-dlp-version.txt") wInstalled "2023.12.01"
      FILE_ATTRIBUTE_ARCHIVE none (by decide) (by decide))).trans (by decide),
    h.2.2 wFresh (GetVRChatToolsPath envOk wFresh).world
      (ConfigureYtDlp envOk toolsDir (GetVRChatToolsPath envOk wFresh).world).world
      (FetchLatestReleaseInfo envOk "" ""
        (ConfigureYtDlp envOk toolsDir (GetVRChatToolsPath envOk wFresh).world).world).world
      toolsDir exampleUrl "2024.01.01" rfl (by decide) rfl rfl (by decide) (by decide),
    by decide, by decide⟩

/-! ## Claims about `FetchLatestReleaseInfo` -/

/-- C6: when the response parses to an object with a string `tag_name` and
an `assets` list whose entries each have a string `name` and a string
`browser_download_url`, the parsing part of `FetchLatestReleaseInfo` returns
`true` exactly when some asset is named `yt-dlp.exe`; it then hands back the
`browser_download_url` of the first such asset and `tag_name`; when no asset
matches it returns `false` with both outputs as they were passed in.  The
first conjunct places the parsing part inside `FetchLatestReleaseInfo`. -/
theorem C6_asset_selection (env : Env) (response url0 ver0 tag : String)
    (kvs : List (String × Json)) (assets : List Json) (w : World)
    (hparse : env.json_parse response = some (.object kvs))
    (htag : kvs.lookup "tag_name" = some (.string tag))
    (hassets : kvs.lookup "assets" = some (.array assets))
    (hwf : ∀ a ∈ assets, WellFormedAsset a) :
    (FetchLatestReleaseInfo env url0 ver0 = (do
      if !(← curl_easy_init env) then
        cerr "Failed to initialize CURL"
        return (false, url0, ver0)
      let tr ← curl_easy_perform_to_string env releasesLatestUrl
      if tr.res != 0 then
        cerr ("curl_easy_perform() failed: " ++ env.curl_easy_strerror tr.res)
        return (false, url0, ver0)
      if tr.responseCode != 200 then
        cerr ("HTTP request failed with response code: " ++ toString tr.responseCode)
        return (false, url0, ver0)
      FetchLatestReleaseInfo_parse env tr.body url0 ver0)) ∧
    ((∃ url ver, (FetchLatestReleaseInfo_parse env response url0 ver0 w).value?
          = some (true, url, ver))
      ↔ ∃ a ∈ assets, assetName? a = some "yt-dlp.exe") ∧
    (∀ pre a post u, assets = pre ++ a :: post →
      (∀ b ∈ pre, assetName? b ≠ some "yt-dlp.exe") →
      assetName? a = some "yt-dlp.exe" → assetUrl? a = some u →
      (FetchLatestReleaseInfo_parse env response url0 ver0 w).value? = some (true, u, tag)) ∧
    ((∀ a ∈ assets, assetName? a ≠ some "yt-dlp.exe") →
      (FetchLatestReleaseInfo_parse env response url0 ver0 w).value?
        = some (false, url0, ver0)) := by
  have hfirst : ∀ pre a post u, assets = pre ++ a :: post →
      (∀ b ∈ pre, assetName? b ≠ some "yt-dlp.exe") →
      assetName? a = some "yt-dlp.exe" → assetUrl? a = some u →
      (FetchLatestReleaseInfo_parse env response url0 ver0 w).value? = some (true, u, tag) := by
    intro pre a post u hl hpre ha hu
    subst hl
    rw [FetchLatestReleaseInfo_parse_first env response url0 ver0 tag u kvs pre post a w hparse
      htag hassets (fun b hb => hwf b (List.mem_append_left _ hb)) hpre ha hu]
    rfl
  have hnone : (∀ a ∈ assets, assetName? a ≠ some "yt-dlp.exe") →
      (FetchLatestReleaseInfo_parse env response url0 ver0 w).value?
        = some (false, url0, ver0) := by
    intro hno
    rw [FetchLatestReleaseInfo_parse_none env response url0 ver0 kvs assets w hparse hassets
      hwf hno]
    rfl
  refine ⟨rfl, ⟨?_, ?_⟩, hfirst, hnone⟩
  · rintro ⟨url, ver, hv⟩
    by_contra hex
    have hno : ∀ a ∈ assets, assetName? a ≠ some "yt-dlp.exe" :=
      fun a ha hn => hex ⟨a, ha, hn⟩
    rw [hnone hno] at hv
    simp at hv
  · intro hex
    obtain ⟨pre, a, post, hl, hpre, ha⟩ :=
      List.exists_first (fun a => assetName? a = some "yt-dlp.exe") assets hex
    obtain ⟨u, hu⟩ := Option.isSome_iff_exists.mp
      (hwf a (hl ▸ List.mem_append_right _ (List.mem_cons_self _ _))).2
    exact ⟨u, tag, hfirst pre a post u hl hpre ha hu⟩

/-- C6 at two releases: the second asset of release 2024.01.01 is the one
named `yt-dlp.exe`, and its location and the tag are handed back; a release
with `yt-dlp` and `yt-dlp_linux` only gives `false` and leaves the outputs. -/
theorem C6_asset_selection_witness :
    (FetchLatestReleaseInfo_parse envOk (releaseText "2024.01.01" ["yt-dlp", "yt-dlp.exe"])
        "" "" wFresh).value?
      = some (true, "https://example.invalid/download/yt-dlp.exe", "2024.01.01") ∧
    (FetchLatestReleaseInfo_parse envNoAsset
        (releaseText "2024.01.01" ["yt-dlp", "yt-dlp_linux"]) "old" "0" wFresh).value?
      = some (false, "old", "0") :=
  ⟨(C6_asset_selection envOk (releaseText "2024.01.01" ["yt-dlp", "yt-dlp.exe"]) "" ""
      "2024.01.01" _ _ wFresh rfl rfl rfl (by decide)).2.2.1
      [.object [("browser_download_url", .string "https://example.invalid/download/yt-dlp"),
        ("name", .string "yt-dlp")]]
      (.object [("browser_download_url", .string "https://example.invalid/download/yt-dlp.exe"),
        ("name", .string "yt-dlp.exe")]) []
      "https://example.invalid/download/yt-dlp.exe" rfl (by decide) (by decide) (by decide),
   (C6_asset_selection envNoAsset (releaseText "2024.01.01" ["yt-dlp", "yt-dlp_linux"])
      "old" "0" "2024.01.01" _ _ wFresh rfl rfl rfl (by decide)).2.2.2 (by decide)⟩

/-- C7 (code at the failing input): the registry answers status 200 with
the JSON text `[]`.  `data["assets"]` raises `json::type_error`, which the
handler for `json::parse_error` does not catch: `FetchLatestReleaseInfo`
does not return, and neither does `main`.  A release object without
`tag_name` ends the same way, whereas text that is not JSON makes
`FetchLatestReleaseInfo` return `false` with both outputs unchanged. -/
theorem C7_type_error_escapes :
    (FetchLatestReleaseInfo envArrayBody "" "" wFresh).value? = none ∧
    (FetchLatestReleaseInfo envArrayBody "" "" wFresh).exn? = some .json_type_error ∧
    (main envArrayBody wFresh).exn? = some .json_type_error ∧
    (FetchLatestReleaseInfo envNoTag "" "" wFresh).exn? = some .json_type_error ∧
    (FetchLatestReleaseInfo envNotJson "" "" wFresh).value? = some (false, "", "") := by
  decide

/-! ## Claim about the read-only attribute -/

/-- C11: on a regular file with the 32-bit attribute word `a`, a successful
`RemoveReadOnlyAttribute` leaves content, integrity label and every other path
as they were and the file with a word that has bit `i` set exactly when `a`
has it and `i` is not the read-only bit; when the read-only bit of `a` is
clear the call only queries the attributes (no `SetFileAttributesA`, the file
system is the same).  A successful `SetReadOnlyAttribute` leaves the file with
a word that has bit `i` set exactly when `a` has it or `i` is the read-only
bit.  On a path that holds nothing or a directory both print `Path is not a
file`, return `false` and change nothing. -/
theorem C11_readonly_attribute (env : Env) (p : String) (w : World) :
    (∀ (c : String) (a : Nat) (l : Option IntegrityLevel),
      w.fs p = some (.file c a l) → a < 2 ^ 32 →
      (RemoveReadOnlyAttribute env p w).value? = some true →
      (∃ b, (RemoveReadOnlyAttribute env p w).world.fs = fsSet w.fs p (some (.file c b l)) ∧
        ∀ i, b.testBit i = (a.testBit i && decide (i ≠ 0))) ∧
      (a &&& FILE_ATTRIBUTE_READONLY = 0 →
        RemoveReadOnlyAttribute env p w = .ok true (w.log (.GetFileAttributesA p)))) ∧
    (∀ (c : String) (a : Nat) (l : Option IntegrityLevel),
      w.fs p = some (.file c a l) →
      (SetReadOnlyAttribute env p w).value? = some true →
      ∃ b, (SetReadOnlyAttribute env p w).world.fs = fsSet w.fs p (some (.file c b l)) ∧
        ∀ i, b.testBit i = (a.testBit i || decide (i = 0))) ∧
    ((w.fs p = none ∨ ∃ a, w.fs p = some (.dir a)) →
      RemoveReadOnlyAttribute env p w
        = .ok false (w.log (.cerr ("Path is not a file: " ++ p))) ∧
      SetReadOnlyAttribute env p w
        = .ok false (w.log (.cerr ("Path is not a file: " ++ p)))) := by
  refine ⟨?_, ?_, readOnlyAttribute_not_file env p w⟩
  · intro c a l hp ha h
    obtain ⟨h0, h1⟩ := RemoveReadOnlyAttribute_true env p w c a l hp h
    refine ⟨?_, h0⟩
    by_cases hb : a &&& FILE_ATTRIBUTE_READONLY = 0
    · refine ⟨a, ?_, ?_⟩
      · rw [h0 hb]
        funext q
        by_cases hq : q = p
        · subst hq
          simp [Res.world, fsSet, hp]
        · simp [Res.world, fsSet, hq]
      · intro i
        cases i with
        | zero =>
          have : a % 2 = 0 := by
            simpa [FILE_ATTRIBUTE_READONLY, Nat.and_one_is_mod] using hb
          simp [Nat.testBit_zero, this]
        | succ j => simp
    · exact ⟨_, (h1 hb).1, fun i => testBit_clear_readonly a i ha⟩
  · intro c a l hp h
    exact ⟨_, SetReadOnlyAttribute_fs env p w c a l hp h, testBit_set_readonly a⟩

/-- C11 (witness): the locked artifact has the word `0x21`; unlocking leaves
`0x20`, locking the unlocked artifact leaves `0x21`, unlocking the unlocked
artifact writes nothing, and the managed directory is refused. -/
theorem C11_readonly_attribute_witness :
    (RemoveReadOnlyAttribute envOk (toolsDir ++ "\\yt-dlp.exe") wInstalled).world.fs
        (toolsDir ++ "\\yt-dlp.exe") = some (.file "OLD" 0x20 (some .medium)) ∧
    RemoveReadOnlyAttribute envOk (toolsDir ++ "\\yt-dlp.exe") wUnlocked
      = .ok true (wUnlocked.log (.GetFileAttributesA (toolsDir ++ "\\yt-dlp.exe"))) ∧
    (SetReadOnlyAttribute envOk (toolsDir ++ "\\yt-dlp.exe") wUnlocked).world.fs
        (toolsDir ++ "\\yt-dlp.exe") = some oldArtifact ∧
    (∃ b, (SetReadOnlyAttribute envOk (toolsDir ++ "\\yt-dlp.exe") wUnlocked).world.fs
        = fsSet wUnlocked.fs (toolsDir ++ "\\yt-dlp.exe") (some (.file "OLD" b (some .medium))) ∧
      ∀ i, b.testBit i = (FILE_ATTRIBUTE_ARCHIVE.testBit i || decide (i = 0))) ∧
    (RemoveReadOnlyAttribute envOk toolsDir wInstalled).value? = some false ∧
    (RemoveReadOnlyAttribute envOk toolsDir wInstalled).world.fs = wInstalled.fs :=
  have h := C11_readonly_attribute envOk (toolsDir ++ "\\yt-dlp.exe") wUnlocked
  have hd := (C11_readonly_attribute envOk toolsDir wInstalled).2.2
    (Or.inr ⟨FILE_ATTRIBUTE_DIRECTORY, by decide⟩)
  ⟨by decide,
    (h.1 "OLD" FILE_ATTRIBUTE_ARCHIVE (some .medium) (by decide) (by decide) (by decide)).2
      (by decide),
    by decide,
    h.2.1 "OLD" FILE_ATTRIBUTE_ARCHIVE (some .medium) (by decide) (by decide),
    congrArg Res.value? hd.1,
    congrArg (fun r => r.world.fs) hd.1⟩

/-! ## Claim about the version marker across runs -/

end YtDlpUpdater
